import Mathlib

/-!
# ESP32_Alexa: `components/alexa/alexa.c`

A shallow embedding of the protocol engine of `alexa.c` (the outbound multipart
generator `data_source_read_callback`, the multipart dispatch callbacks, the
nghttp2 header / frame callbacks and `send_speech`), followed by theorems about
those definitions.

Conventions of the embedding.

* A C string is the list of its characters before the terminating NUL; a byte
  buffer `(at, length)` is the list of its `length` bytes.
* Pointers into the embedded audio file are offsets from `file_start`; the NULL
  pointer is `none` (`file_start` is a linker symbol and is not NULL).
* External collaborators (audio player, nghttp2 transport) are recorded as a log
  of the calls made to them.
-/

namespace Alexa

/-! ## Types of `alexa.c` -/

/-- The enum `alexa_stream_status_t`. -/
inductive alexa_stream_status_t where
  | CONN_CONNECTING
  | CONN_UNAUTHORIZED
  | CONN_OPEN
  | CONN_CLOSED
  deriving DecidableEq, Repr

/-- The enum `part_type_t`. -/
inductive part_type_t where
  | META_HEADERS
  | META_JSON
  | AUDIO_HEADERS
  | AUDIO_DATA
  | DONE
  deriving DecidableEq, Repr

open alexa_stream_status_t part_type_t

/-- The position of a `part_type_t` value in the enum declaration
(`META_HEADERS = 0`, ..., `DONE = 4`). -/
def part_type_t.toNat : part_type_t → Nat
  | META_HEADERS => 0
  | META_JSON => 1
  | AUDIO_HEADERS => 2
  | AUDIO_DATA => 3
  | DONE => 4

/-- The struct `alexa_stream_t`.  `m_parser_ptr` is the field `m_parser`: it holds
the boundary the multipart parser was initialised with (`none` is NULL); `file_pos` is the
cursor into the embedded audio file as an offset from `file_start` (`none` is
the NULL pointer); `http2_session` tells whether the transport session pointer
is set.  The back pointer `alexa_session` is implicit. -/
structure alexa_stream_t where
  http2_session : Bool
  stream_id : Int
  status : alexa_stream_status_t
  m_parser_ptr : Option (List Char)
  current_part : part_type_t
  next_action : part_type_t
  file_pos : Option Nat
  deriving DecidableEq, Repr

/-! ## String constants of `alexa.c` -/

def NL : String := "\r\n"
def BOUNDARY_TERM : String := "nghttp2123456789"
def BOUNDARY_LINE : String := NL ++ "--" ++ BOUNDARY_TERM ++ NL
def BOUNDARY_EOF : String := NL ++ "--" ++ BOUNDARY_TERM ++ "--" ++ NL
def HDR_FORM_DATA : String := "multipart/form-data; boundary=\"" ++ BOUNDARY_TERM ++ "\""

def HDR_DISP_META : String := "Content-Disposition: form-data; name=\"metadata\"" ++ NL
def HDR_TYPE_JSON : String := "Content-Type: application/json; charset=UTF-8" ++ NL
def JSON_PART_PREFIX : String := BOUNDARY_LINE ++ HDR_DISP_META ++ HDR_TYPE_JSON ++ NL

def HDR_DISP_AUDIO : String := "Content-Disposition: form-data; name=\"audio\"" ++ NL
def HDR_TYPE_OCTET : String := "Content-Type: application/octet-stream" ++ NL
def AUDIO_PART_PREFIX : String := BOUNDARY_LINE ++ HDR_DISP_AUDIO ++ HDR_TYPE_OCTET ++ NL

/-! ## The outbound generator -/

/-- What one call of `data_source_read_callback` leaves behind: the updated
stream, the updated static `yield`, the bytes copied to `buf` (the return value
`bytes_written` is their number) and whether `NGHTTP2_DATA_FLAG_EOF` was or-ed
into `*data_flags`. -/
structure read_result where
  stream : alexa_stream_t
  yield : Bool
  written : List Char
  eof : Bool
  deriving DecidableEq, Repr

/-- The return value `bytes_written` of a call. -/
def read_result.bytes_written (r : read_result) : Nat := r.written.length

/-- The function `data_source_read_callback`.  `json` is the string rendered by
`create_json_metadata` (cJSON), `file` the embedded audio between `file_start`
and `file_end`, `yield` the static flag, `buf_length` the capacity offered by
the transport.  The cursor is taken to lie inside the file (`pos ≤ file_end`), as
it does on every stream started by `send_speech`. -/
def data_source_read_callback (json file : List Char) (yield : Bool)
    (alexa_stream : alexa_stream_t) (buf_length : Nat) : read_result :=
  let yield := if yield then false else yield
  match alexa_stream.next_action with
  | META_HEADERS | META_JSON =>
    { stream := { alexa_stream with next_action := AUDIO_HEADERS }
      yield := yield
      written := JSON_PART_PREFIX.toList ++ json
      eof := false }
  | AUDIO_HEADERS =>
    { stream := { alexa_stream with next_action := AUDIO_DATA }
      yield := yield
      written := AUDIO_PART_PREFIX.toList
      eof := false }
  | AUDIO_DATA =>
    let pos : Nat := match alexa_stream.file_pos with
      | none => 0
      | some p => p
    let remaining : Nat := file.length - pos
    let bytes_written : Nat := if buf_length < remaining then buf_length else remaining
    let next : part_type_t := if buf_length > remaining then DONE else alexa_stream.next_action
    { stream := { alexa_stream with next_action := next, file_pos := some (pos + bytes_written) }
      yield := true
      written := (file.drop pos).take bytes_written
      eof := false }
  | DONE =>
    { stream := alexa_stream
      yield := yield
      written := BOUNDARY_EOF.toList
      eof := true }

/-- The transport's pull loop on one stream: one call of
`data_source_read_callback` per offered capacity, in order, and no further call
once a call has set the EOF flag.  The result lists the calls made. -/
def pull_until_eof (json file : List Char) :
    List Nat → Bool → alexa_stream_t → List read_result
  | [], _, _ => []
  | cap :: caps, yield, s =>
    let r := data_source_read_callback json file yield s cap
    if r.eof then [r] else r :: pull_until_eof json file caps r.yield r.stream

/-- The bytes of a sequence of calls, concatenated in call order. -/
def emitted (rs : List read_result) : List Char :=
  (rs.map read_result.written).flatten

/-- How many calls of a sequence reported the final result (EOF flag set). -/
def final_reports (rs : List read_result) : Nat :=
  (rs.filter (fun r => r.eof)).length

/-- The request body the generator is meant to produce. -/
def expected_body (json file : List Char) : List Char :=
  JSON_PART_PREFIX.toList ++ json ++ AUDIO_PART_PREFIX.toList ++ file ++ BOUNDARY_EOF.toList

/-- The cursor of a stream as an offset (`NULL` is replaced by `file_start` on
the first `AUDIO_DATA` call). -/
def cursor (s : alexa_stream_t) : Nat :=
  match s.file_pos with
  | none => 0
  | some p => p

/-- The stream `send_speech` hands to the generator: `next_action =
META_HEADERS`, cursor unset. -/
def fresh_stream : alexa_stream_t :=
  { http2_session := true, stream_id := 3, status := CONN_CLOSED, m_parser_ptr := none,
    current_part := META_HEADERS, next_action := META_HEADERS, file_pos := none }

/-- The stream after the audio part prefix has been sent: `AUDIO_DATA`, cursor
unset. -/
def audio_data_stream : alexa_stream_t :=
  { fresh_stream with next_action := AUDIO_DATA }

/-- The bytes still to be produced from a stream, by `next_action`. -/
def remaining_body (json file : List Char) (s : alexa_stream_t) : List Char :=
  match s.next_action with
  | META_HEADERS | META_JSON =>
    JSON_PART_PREFIX.toList ++ json ++ AUDIO_PART_PREFIX.toList ++ file.drop (cursor s)
      ++ BOUNDARY_EOF.toList
  | AUDIO_HEADERS => AUDIO_PART_PREFIX.toList ++ file.drop (cursor s) ++ BOUNDARY_EOF.toList
  | AUDIO_DATA => file.drop (cursor s) ++ BOUNDARY_EOF.toList
  | DONE => BOUNDARY_EOF.toList

/-- An upper bound on the number of calls a stream needs to finish when every
offered capacity is positive. -/
def calls_needed (file : List Char) (s : alexa_stream_t) : Nat :=
  match s.next_action with
  | META_HEADERS | META_JSON => file.length - cursor s + 4
  | AUDIO_HEADERS => file.length - cursor s + 3
  | AUDIO_DATA => file.length - cursor s + 2
  | DONE => 1

/-- A finished run: the calls emitted `body`, there are at most `n` of them,
exactly one reported the final result, and it is the last one, carrying the
body terminator. -/
def finished_run (rs : List read_result) (body : List Char) (n : Nat) : Prop :=
  emitted rs = body ∧ rs.length ≤ n ∧ final_reports rs = 1 ∧
    ∃ r, rs.getLast? = some r ∧ r.eof = true ∧ r.written = BOUNDARY_EOF.toList

/-! ## C library functions used by `alexa.c` -/

/-- The C function `strncmp(s1, s2, n)` on strings given by their characters; a
read at or after the end of a list yields the terminating NUL.  (In
`on_header_value` the second argument is a buffer of exactly `n` bytes, so no
read of it goes past its end.) -/
def strncmp (s1 s2 : List Char) : Nat → Int
  | 0 => 0
  | n + 1 =>
    let c1 := s1.headD '\x00'
    let c2 := s2.headD '\x00'
    if c1 ≠ c2 then (c1.toNat : Int) - (c2.toNat : Int)
    else if c1 = '\x00' then 0
    else strncmp s1.tail s2.tail n

/-- The C function `strstr(haystack, needle)`: the offset of the first
occurrence of `needle`, `none` for NULL. -/
def strstr : List Char → List Char → Option Nat
  | [], needle => if needle = [] then some 0 else none
  | c :: rest, needle =>
    if needle.isPrefixOf (c :: rest) then some 0
    else (strstr rest needle).map (fun i => i + 1)

/-- The C function `strndup(s, n)`: at most `n` characters of `s`. -/
def strndup (s : List Char) (n : Nat) : List Char := s.take n

/-- The digits loop of `atoi`. -/
def atoi_digits : List Char → Int → Int
  | [], acc => acc
  | c :: cs, acc =>
    if c.isDigit then atoi_digits cs (acc * 10 + ((c.toNat : Int) - 48)) else acc

/-- The C function `isspace` in the C locale. -/
def isspace (c : Char) : Bool :=
  c = ' ' || c = '\t' || c = '\n' || c = '\x0b' || c = '\x0c' || c = '\r'

/-- The C function `atoi` (values that fit an `int`): leading white space, an
optional sign, then decimal digits. -/
def atoi (s : List Char) : Int :=
  match s.dropWhile isspace with
  | '-' :: cs => - atoi_digits cs 0
  | '+' :: cs => atoi_digits cs 0
  | cs => atoi_digits cs 0

/-! ## Session, audio player and transport -/

/-- The values of `content_type_t` (audio player) that `alexa.c` assigns. -/
inductive content_type_t where
  | MIME_UNKNOWN
  | AUDIO_MPEG
  deriving DecidableEq, Repr

/-- A call made to the audio player component. -/
inductive player_call where
  | audio_player_start
  | audio_stream_consumer (data : List Char)
  deriving DecidableEq, Repr

/-- The part of `player_t` that `alexa.c` touches: `media_stream->eof`,
`media_stream->content_type`, and the calls made to the player, oldest first. -/
structure player_t where
  eof : Bool
  content_type : content_type_t
  calls : List player_call
  deriving DecidableEq, Repr

/-- The struct `alexa_session_struct_t`; `event_group` holds the event bits. -/
structure alexa_session_t where
  player_config : player_t
  auth_token : Option (List Char)
  event_group : Nat
  downchannel : alexa_stream_t
  eventchannel : alexa_stream_t
  deriving DecidableEq, Repr

/-- Which of the two stream objects of the session a pointer refers to. -/
inductive stream_ref where
  | downchannel
  | eventchannel
  deriving DecidableEq, Repr

/-- Dereference a stream pointer. -/
def alexa_session_t.stream (a : alexa_session_t) : stream_ref → alexa_stream_t
  | .downchannel => a.downchannel
  | .eventchannel => a.eventchannel

/-- Store through a stream pointer. -/
def alexa_session_t.set_stream (a : alexa_session_t) (r : stream_ref) (s : alexa_stream_t) :
    alexa_session_t :=
  match r with
  | .downchannel => { a with downchannel := s }
  | .eventchannel => { a with eventchannel := s }

def AUTH_TOKEN_VALID_BIT : Nat := 1 <<< 1
def DOWNCHAN_CONNECTED_BIT : Nat := 1 <<< 3

/-- The FreeRTOS call `xEventGroupSetBits`. -/
def xEventGroupSetBits (event_group bits : Nat) : Nat := event_group ||| bits

/-- The FreeRTOS call `xEventGroupClearBits` on the 32-bit `EventBits_t`. -/
def xEventGroupClearBits (event_group bits : Nat) : Nat :=
  event_group &&& (0xFFFFFFFF ^^^ bits)

/-- Whether all of `bits` are set in the event group. -/
def bits_set (event_group bits : Nat) : Bool := event_group &&& bits = bits

/-- The function `create_alexa_session`. -/
def create_alexa_session : alexa_session_t :=
  { player_config := { eof := true, content_type := .MIME_UNKNOWN, calls := [] }
    auth_token := none
    event_group := 0
    downchannel :=
      { http2_session := false, stream_id := -1, status := CONN_CLOSED, m_parser_ptr := none,
        current_part := META_HEADERS, next_action := META_HEADERS, file_pos := none }
    eventchannel :=
      { http2_session := false, stream_id := -1, status := CONN_CLOSED, m_parser_ptr := none,
        current_part := META_HEADERS, next_action := META_HEADERS, file_pos := none } }

/-! ## Multipart callbacks -/

/-- The function `on_header_field`. -/
def on_header_field (a : alexa_session_t) (_r : stream_ref) (_at : List Char) :
    alexa_session_t := a

/-- The function `on_header_value`; `at_` is the buffer `(at, length)`. -/
def on_header_value (a : alexa_session_t) (r : stream_ref) (at_ : List Char) :
    alexa_session_t :=
  if strncmp "application/octet-stream".toList at_ at_.length = 0 then
    let a1 := a.set_stream r { a.stream r with current_part := AUDIO_DATA }
    { a1 with
      player_config :=
        { eof := false
          content_type := .AUDIO_MPEG
          calls := a1.player_config.calls ++ [.audio_player_start] } }
  else a

/-- The function `on_part_data`. -/
def on_part_data (a : alexa_session_t) (r : stream_ref) (at_ : List Char) : alexa_session_t :=
  if (a.stream r).current_part = AUDIO_DATA then
    { a with
      player_config :=
        { a.player_config with
          calls := a.player_config.calls ++ [.audio_stream_consumer at_] } }
  else a

/-- The function `on_part_data_begin`. -/
def on_part_data_begin (a : alexa_session_t) (_r : stream_ref) : alexa_session_t := a

/-- The function `on_headers_complete`. -/
def on_headers_complete (a : alexa_session_t) (_r : stream_ref) : alexa_session_t := a

/-- The function `on_part_data_end`. -/
def on_part_data_end (a : alexa_session_t) (r : stream_ref) : alexa_session_t :=
  if (a.stream r).current_part = AUDIO_DATA then
    { a with player_config := { a.player_config with eof := true } }
  else a

/-- The function `on_body_end`. -/
def on_body_end (a : alexa_session_t) (_r : stream_ref) : alexa_session_t := a

/-- The function `init_multipart_parser`: the stream gets a parser for
`boundary_term` and `current_part = META_HEADERS`. -/
def init_multipart_parser_fn (a : alexa_session_t) (r : stream_ref)
    (boundary_term : List Char) : alexa_session_t :=
  a.set_stream r
    { a.stream r with m_parser_ptr := some boundary_term, current_part := META_HEADERS }

/-- The events the multipart parser dispatches to the callbacks registered by
`init_multipart_parser`. -/
inductive multipart_event where
  | header_field (at_ : List Char)
  | header_value (at_ : List Char)
  | headers_complete
  | part_data_begin
  | part_data (at_ : List Char)
  | part_data_end
  | body_end
  deriving DecidableEq, Repr

/-- One dispatch: the callback registered for the event runs on the stream. -/
def dispatch (r : stream_ref) (a : alexa_session_t) : multipart_event → alexa_session_t
  | .header_field at_ => on_header_field a r at_
  | .header_value at_ => on_header_value a r at_
  | .headers_complete => on_headers_complete a r
  | .part_data_begin => on_part_data_begin a r
  | .part_data at_ => on_part_data a r at_
  | .part_data_end => on_part_data_end a r
  | .body_end => on_body_end a r

/-- A sequence of dispatch events on one stream, in order. -/
def dispatch_all (r : stream_ref) (a : alexa_session_t) (evs : List multipart_event) :
    alexa_session_t :=
  evs.foldl (dispatch r) a

/-- The bytes a call hands to the audio sink. -/
def player_call.bytes : player_call → List Char
  | .audio_player_start => []
  | .audio_stream_consumer d => d

/-- The bytes handed to `audio_stream_consumer`, in call order. -/
def fed_bytes (p : player_t) : List Char :=
  (p.calls.map player_call.bytes).flatten

/-- The dispatch events of one audio part: the header value
`application/octet-stream`, the body chunks, the end of the part. -/
def audio_part_events (chunks : List (List Char)) : List multipart_event :=
  .header_value "application/octet-stream".toList
    :: (chunks.map multipart_event.part_data ++ [.part_data_end])

/-! ## nghttp2 callbacks -/

/-- The frame types `alexa.c` distinguishes (`frame->hd.type`). -/
inductive frame_type where
  | NGHTTP2_DATA
  | NGHTTP2_HEADERS
  | other (code : Nat)
  deriving DecidableEq, Repr

/-- The enum `nghttp2_headers_category` (`frame->headers.cat`). -/
inductive headers_category where
  | NGHTTP2_HCAT_REQUEST
  | NGHTTP2_HCAT_RESPONSE
  | NGHTTP2_HCAT_PUSH_RESPONSE
  | NGHTTP2_HCAT_HEADERS
  deriving DecidableEq, Repr

/-- What the callbacks read of an `nghttp2_frame`. -/
structure nghttp2_frame where
  hd_type : frame_type
  cat : headers_category
  stream_id : Int
  deriving DecidableEq, Repr

/-- The block `// parse boundary term` of `header_callback`. -/
def parse_boundary_term (a : alexa_session_t) (stream : stream_ref)
    (name value : List Char) : alexa_session_t :=
  if name = "content-type".toList then
    match strstr value "boundary=".toList with
    | none => a
    | some i =>
      let start := i + "boundary=".length
      match strstr (value.drop start) ";".toList with
      | none => a
      | some j =>
        let end_ := start + j
        -- make room for '--' prefix
        let start := start - 2
        let boundary_term := strndup (value.drop start) (end_ - start)
        let boundary_term := (boundary_term.set 0 '-').set 1 '-'
        init_multipart_parser_fn a stream boundary_term
  else a

/-- The function `header_callback`.  `stream` is the user data nghttp2 holds for
`frame->hd.stream_id`; `name` and `value` are the header's C strings. -/
def header_callback (a : alexa_session_t) (stream : stream_ref) (frame : nghttp2_frame)
    (name value : List Char) : alexa_session_t :=
  match frame.hd_type with
  | .NGHTTP2_HEADERS =>
    if frame.cat = .NGHTTP2_HCAT_RESPONSE then
      -- check downchannel stream reply status
      if frame.stream_id = a.downchannel.stream_id ∧ name = ":status".toList then
        let status_code := atoi value
        if status_code = 403 then
          { a with
            event_group := xEventGroupClearBits a.event_group AUTH_TOKEN_VALID_BIT
            downchannel := { a.downchannel with status := CONN_UNAUTHORIZED } }
        else if status_code = 200 then
          parse_boundary_term
            { a with downchannel := { a.downchannel with status := CONN_OPEN } }
            stream name value
        else parse_boundary_term a stream name value
      else parse_boundary_term a stream name value
    else a
  | _ => a

/-- The function `on_frame_recv_callback`. -/
def on_frame_recv_callback (a : alexa_session_t) (frame : nghttp2_frame) : alexa_session_t :=
  match frame.hd_type with
  | .NGHTTP2_HEADERS =>
    if frame.cat = .NGHTTP2_HCAT_RESPONSE then
      if frame.stream_id = a.downchannel.stream_id then
        -- once all headers for the downchannel are received, we're clear
        { a with event_group := xEventGroupSetBits a.event_group DOWNCHAN_CONNECTED_BIT }
      else a
    else a
  | _ => a

/-! ## Session entry points -/

def BEARER : String := "Bearer "
def uri_directives : String := "https://avs-alexa-eu.amazon.com/v20160207/directives"
def uri_events : String := "https://avs-alexa-eu.amazon.com/v20160207/events"

/-- A request handed to the transport: URI, method, the `nghttp2_nv` headers and
whether a data provider (`data_source_read_callback`) comes with it. -/
structure http2_request where
  uri : String
  method : String
  hdrs : List (String × List Char)
  data_provider : Bool
  deriving DecidableEq, Repr

/-- A call made to the transport (`nghttp2_client`, nghttp2). -/
inductive transport_call where
  | nghttp_new_session (req : http2_request)
  | nghttp_new_stream (req : http2_request)
  | nghttp2_submit_goaway
  deriving DecidableEq, Repr

/-- The transport as seen from `alexa.c`: the counter `num_outgoing_streams` of
`http2_session_data_t` and the calls made to the transport, oldest first. -/
structure http2_session_data_t where
  num_outgoing_streams : Int
  calls : List transport_call
  deriving DecidableEq, Repr

/-- The function `build_auth_header`. -/
def build_auth_header (auth_token : List Char) : List Char :=
  BEARER.toList ++ auth_token

/-- The function `send_speech`.  `ret` is the return value of `nghttp_new_stream`
and `stream_id` the value it leaves in `eventchannel->stream_id`.  The result is
`none` when `auth_token` is NULL (`build_auth_header` dereferences it). -/
def send_speech (a : alexa_session_t) (h : http2_session_data_t) (ret stream_id : Int) :
    Option (alexa_session_t × http2_session_data_t × Int) :=
  let a1 := { a with
    eventchannel := { a.eventchannel with
      next_action := META_HEADERS, file_pos := none, current_part := META_HEADERS } }
  match a1.auth_token with
  | none => none
  | some auth_token =>
    -- add headers
    let auth_header := build_auth_header auth_token
    let hdrs := [("authorization", auth_header), ("content-type", HDR_FORM_DATA.toList)]
    -- create stream
    let req : http2_request :=
      { uri := uri_events, method := "POST", hdrs := hdrs, data_provider := true }
    some ({ a1 with eventchannel := { a1.eventchannel with stream_id := stream_id } },
          { h with calls := h.calls ++ [.nghttp_new_stream req] }, ret)

/-- Modelled from the spec: `auth_token_refresh` followed by
`xEventGroupWaitBits(AUTH_TOKEN_VALID_BIT, portMAX_DELAY)`; the refresh
collaborator is not part of `alexa.c`.  The collaborator "signals completion by
updating the shared credential value and setting `CredentialValid`":
`refreshed` is the credential it delivers, `none` when it never completes.  The
result is `none` when the wait never returns. -/
def refresh_and_wait (a : alexa_session_t) (refreshed : Option (List Char)) :
    Option alexa_session_t :=
  match refreshed with
  | some token =>
    some { a with
      auth_token := some token
      event_group := xEventGroupSetBits a.event_group AUTH_TOKEN_VALID_BIT }
  | none => if bits_set a.event_group AUTH_TOKEN_VALID_BIT then some a else none

/-- The function `open_downchannel`.  `ret` is the return value of
`nghttp_new_session` and `stream_id` the value it leaves in
`downchannel->stream_id`; `refreshed` is the outcome of the credential refresh
(see `refresh_and_wait`).  The result is `none` when the call does not return
(the wait never ends, or `build_auth_header` dereferences a NULL token). -/
def open_downchannel (a : alexa_session_t) (h : http2_session_data_t)
    (refreshed : Option (List Char)) (ret stream_id : Int) :
    Option (alexa_session_t × http2_session_data_t × Int) :=
  let a1 := { a with downchannel := { a.downchannel with next_action := META_HEADERS } }
  -- authenticate
  let a2 : Option alexa_session_t :=
    match a1.auth_token with
    | none => refresh_and_wait a1 refreshed
    | some _ => some a1
  match a2 with
  | none => none
  | some a3 =>
    match a3.auth_token with
    | none => none
    | some auth_token =>
      let auth_header := build_auth_header auth_token
      let req : http2_request :=
        { uri := uri_directives, method := "GET", hdrs := [("authorization", auth_header)],
          data_provider := false }
      let h1 := { h with calls := h.calls ++ [.nghttp_new_session req] }
      let a4 := { a3 with downchannel := { a3.downchannel with stream_id := stream_id } }
      if ret ≠ 0 then some (a4, h1, ret)
      else
        some ({ a4 with
                downchannel := { a4.downchannel with http2_session := true }
                eventchannel := { a4.eventchannel with http2_session := true } },
              h1, ret)

/-- The requests handed to the transport so far (streams opened). -/
def requests_submitted (h : http2_session_data_t) : Nat :=
  (h.calls.filter (fun c => c ≠ .nghttp2_submit_goaway)).length

/-! ## Data and close callbacks, and runs of the session -/

/-- The function `recv_callback`.  `events` are the dispatch events the multipart
parser produces for the data chunk; they reach the callbacks only when the
stream has a parser. -/
def recv_callback (a : alexa_session_t) (stream : stream_ref)
    (events : List multipart_event) : alexa_session_t :=
  match (a.stream stream).m_parser_ptr with
  | none => a
  | some _ => dispatch_all stream a events

/-- The function `stream_close_callback`; `stream` is the user data nghttp2 holds
for `stream_id`. -/
def stream_close_callback (a : alexa_session_t) (h : http2_session_data_t)
    (stream : stream_ref) : alexa_session_t × http2_session_data_t :=
  let a1 := a.set_stream stream { a.stream stream with status := CONN_CLOSED }
  let h1 := { h with num_outgoing_streams := h.num_outgoing_streams - 1 }
  if h1.num_outgoing_streams < 1 then
    (a1, { h1 with calls := h1.calls ++ [.nghttp2_submit_goaway] })
  else (a1, h1)

/-- How often the graceful shutdown (`nghttp2_submit_goaway`) has been
initiated. -/
def goaways (h : http2_session_data_t) : Nat :=
  (h.calls.filter (fun c => c = .nghttp2_submit_goaway)).length

/-- The session operations and transport events of `alexa.c`, with the inputs
they receive from outside. -/
inductive session_op where
  | create_alexa_session
  | open_downchannel (refreshed : Option (List Char)) (ret stream_id : Int)
  | send_speech (ret stream_id : Int)
  | header_callback (stream : stream_ref) (frame : nghttp2_frame) (name value : List Char)
  | on_frame_recv_callback (frame : nghttp2_frame)
  | recv_callback (stream : stream_ref) (events : List multipart_event)
  | stream_close_callback (stream : stream_ref)
  deriving DecidableEq, Repr

/-- One operation or event on the session and its transport.  An entry point
that does not return (`none`) leaves what it had written before: the reset of
`next_action` in `open_downchannel`, the reset of the event channel's generator
fields in `send_speech`. -/
def step_op (w : alexa_session_t × http2_session_data_t) :
    session_op → alexa_session_t × http2_session_data_t
  | .create_alexa_session => (create_alexa_session, w.2)
  | .open_downchannel refreshed ret stream_id =>
    match open_downchannel w.1 w.2 refreshed ret stream_id with
    | some r => (r.1, r.2.1)
    | none =>
      ({ w.1 with downchannel := { w.1.downchannel with next_action := META_HEADERS } }, w.2)
  | .send_speech ret stream_id =>
    match send_speech w.1 w.2 ret stream_id with
    | some r => (r.1, r.2.1)
    | none =>
      ({ w.1 with
          eventchannel := { w.1.eventchannel with
            next_action := META_HEADERS, file_pos := none, current_part := META_HEADERS } },
        w.2)
  | .header_callback stream frame name value =>
    (header_callback w.1 stream frame name value, w.2)
  | .on_frame_recv_callback frame => (on_frame_recv_callback w.1 frame, w.2)
  | .recv_callback stream events => (recv_callback w.1 stream events, w.2)
  | .stream_close_callback stream => stream_close_callback w.1 w.2 stream

/-- A sequence of operations and events, in order. -/
def run_ops (w : alexa_session_t × http2_session_data_t) (ops : List session_op) :
    alexa_session_t × http2_session_data_t :=
  ops.foldl step_op w

/-- The transport before any request has been issued. -/
def idle_transport : http2_session_data_t :=
  { num_outgoing_streams := 0, calls := [] }

/-- A transport with two active streams (downchannel and event channel). -/
def two_stream_transport : http2_session_data_t :=
  { num_outgoing_streams := 2, calls := [] }

/-! ## Sample states -/

/-- A response HEADERS frame on stream `id`. -/
def response_headers (id : Int) : nghttp2_frame :=
  { hd_type := .NGHTTP2_HEADERS, cat := .NGHTTP2_HCAT_RESPONSE, stream_id := id }

/-- A session whose downchannel request has been issued on transport stream 1
with a valid token: `AUTH_TOKEN_VALID_BIT` set, no parser yet. -/
def connected_session : alexa_session_t :=
  { create_alexa_session with
    auth_token := some "tok".toList
    event_group := AUTH_TOKEN_VALID_BIT
    downchannel := { create_alexa_session.downchannel with http2_session := true, stream_id := 1 }
    eventchannel := { create_alexa_session.eventchannel with http2_session := true } }

theorem read_meta_headers (json file : List Char) (y : Bool) (s : alexa_stream_t) (cap : Nat)
    (h : s.next_action = META_HEADERS ∨ s.next_action = META_JSON) :
    data_source_read_callback json file y s cap =
      { stream := { s with next_action := AUDIO_HEADERS }
        yield := false
        written := JSON_PART_PREFIX.toList ++ json
        eof := false } := by
  rcases h with h | h <;> cases y <;> simp [data_source_read_callback, h]

theorem read_audio_headers (json file : List Char) (y : Bool) (s : alexa_stream_t) (cap : Nat)
    (h : s.next_action = AUDIO_HEADERS) :
    data_source_read_callback json file y s cap =
      { stream := { s with next_action := AUDIO_DATA }
        yield := false
        written := AUDIO_PART_PREFIX.toList
        eof := false } := by
  cases y <;> simp [data_source_read_callback, h]

theorem read_audio_data (json file : List Char) (y : Bool) (s : alexa_stream_t) (cap : Nat)
    (h : s.next_action = AUDIO_DATA) :
    data_source_read_callback json file y s cap =
      { stream := { s with
          next_action := if cap > file.length - cursor s then DONE else AUDIO_DATA
          file_pos := some (cursor s + min cap (file.length - cursor s)) }
        yield := true
        written := (file.drop (cursor s)).take (min cap (file.length - cursor s))
        eof := false } := by
  have hmin : (if cap < file.length - cursor s then cap else file.length - cursor s)
      = min cap (file.length - cursor s) := by
    split <;> omega
  cases hp : s.file_pos <;>
    simp [data_source_read_callback, h, cursor, hp] at hmin ⊢ <;> simp [hmin]

theorem read_done (json file : List Char) (y : Bool) (s : alexa_stream_t) (cap : Nat)
    (h : s.next_action = DONE) :
    data_source_read_callback json file y s cap =
      { stream := s
        yield := false
        written := BOUNDARY_EOF.toList
        eof := true } := by
  cases y <;> simp [data_source_read_callback, h]

theorem take_drop_append_drop (l : List Char) (a c : Nat) :
    (l.drop a).take c ++ l.drop (a + c) = l.drop a := by
  have h := List.take_append_drop c (l.drop a)
  rw [List.drop_drop] at h
  exact h

theorem pull_done (json file : List Char) (cap : Nat) (caps : List Nat) (y : Bool)
    (s : alexa_stream_t) (h : s.next_action = DONE) :
    pull_until_eof json file (cap :: caps) y s =
      [{ stream := s, yield := false, written := BOUNDARY_EOF.toList, eof := true }] := by
  simp [pull_until_eof, read_done json file y s cap h]

theorem finished_run_cons (r : read_result) (rs : List read_result) (body : List Char) (n : Nat)
    (hr : r.eof = false) (h : finished_run rs body n) :
    finished_run (r :: rs) (r.written ++ body) (n + 1) := by
  obtain ⟨h1, h2, h3, q, h4, h5, h6⟩ := h
  refine ⟨?_, ?_, ?_, q, ?_, h5, h6⟩
  · simp [emitted] at h1 ⊢
    rw [h1]
  · simpa using h2
  · simp [final_reports, hr] at h3 ⊢
    exact h3
  · cases rs with
    | nil => simp at h4
    | cons a t => simpa [List.getLast?_cons_cons] using h4

theorem finished_run_done (json file : List Char) (cap : Nat) (caps : List Nat) (y : Bool)
    (s : alexa_stream_t) (h : s.next_action = DONE) :
    finished_run (pull_until_eof json file (cap :: caps) y s) BOUNDARY_EOF.toList 1 := by
  rw [pull_done json file cap caps y s h]
  refine ⟨by simp [emitted], by simp, by simp [final_reports], _, rfl, rfl, rfl⟩

theorem finished_run_mono (rs : List read_result) (body : List Char) (n m : Nat)
    (hnm : n ≤ m) (h : finished_run rs body n) : finished_run rs body m :=
  ⟨h.1, le_trans h.2.1 hnm, h.2.2⟩

/-- The audio phase: from `AUDIO_DATA` with the cursor inside the file, positive
capacities and enough of them, the run emits the rest of the file and the
terminator and stops. -/
theorem pull_audio_data (json file : List Char) :
    ∀ (caps : List Nat) (y : Bool) (s : alexa_stream_t),
      s.next_action = AUDIO_DATA → cursor s ≤ file.length → (∀ c ∈ caps, 0 < c) →
      file.length - cursor s + 2 ≤ caps.length →
      finished_run (pull_until_eof json file caps y s)
        (file.drop (cursor s) ++ BOUNDARY_EOF.toList) (file.length - cursor s + 2) := by
  intro caps
  induction caps with
  | nil => intro y s _ _ _ hlen; simp at hlen
  | cons cap caps ih =>
    intro y s hs hwf hpos hlen
    have hcap : 0 < cap := hpos cap (by simp)
    have hpos2 : ∀ c ∈ caps, 0 < c := fun c hc => hpos c (by simp [hc])
    have hstep := read_audio_data json file y s cap hs
    simp only [List.length_cons] at hlen
    by_cases hgt : cap > file.length - cursor s
    · -- this call exhausts the file and moves to DONE
      have hmin : min cap (file.length - cursor s) = file.length - cursor s := by omega
      cases caps with
      | nil => simp at hlen
      | cons c2 caps2 =>
        have hfin := finished_run_done json file c2 caps2 true
          { s with next_action := DONE, file_pos := some (cursor s + (file.length - cursor s)) } rfl
        have hcons := finished_run_cons
          (data_source_read_callback json file y s cap) _ _ _ (by rw [hstep]) hfin
        have hrun : pull_until_eof json file (cap :: c2 :: caps2) y s =
            data_source_read_callback json file y s cap ::
              pull_until_eof json file (c2 :: caps2) true
                { s with next_action := DONE,
                         file_pos := some (cursor s + (file.length - cursor s)) } := by
          conv_lhs => rw [pull_until_eof]
          simp [hstep, hgt, hmin]
        rw [hrun]
        have hw : (data_source_read_callback json file y s cap).written
            = file.drop (cursor s) := by
          rw [hstep]; simp [hmin]
        rw [hw] at hcons
        exact finished_run_mono _ _ _ _ (by omega) hcons
    · -- the call fills the buffer and stays in AUDIO_DATA
      have hmin : min cap (file.length - cursor s) = cap := by omega
      have hc : cursor { s with next_action := AUDIO_DATA, file_pos := some (cursor s + cap) }
          = cursor s + cap := rfl
      have hnext := ih true
        { s with next_action := AUDIO_DATA, file_pos := some (cursor s + cap) } rfl
        (by rw [hc]; omega) hpos2 (by rw [hc]; omega)
      have hcons := finished_run_cons
        (data_source_read_callback json file y s cap) _ _ _ (by rw [hstep]) hnext
      have hrun : pull_until_eof json file (cap :: caps) y s =
          data_source_read_callback json file y s cap ::
            pull_until_eof json file caps true
              { s with next_action := AUDIO_DATA, file_pos := some (cursor s + cap) } := by
        conv_lhs => rw [pull_until_eof]
        simp [hstep, hgt, hmin]
      rw [hrun]
      have hw : (data_source_read_callback json file y s cap).written
            ++ (file.drop (cursor s + cap) ++ BOUNDARY_EOF.toList)
          = file.drop (cursor s) ++ BOUNDARY_EOF.toList := by
        rw [hstep]
        simp only [hmin]
        rw [← List.append_assoc, take_drop_append_drop]
      rw [hc, hw] at hcons
      exact finished_run_mono _ _ _ _ (by omega) hcons

theorem pull_audio_headers (json file : List Char) (caps : List Nat) (y : Bool)
    (s : alexa_stream_t) (hs : s.next_action = AUDIO_HEADERS) (hwf : cursor s ≤ file.length)
    (hpos : ∀ c ∈ caps, 0 < c) (hlen : file.length - cursor s + 3 ≤ caps.length) :
    finished_run (pull_until_eof json file caps y s)
      ( AUDIO_PART_PREFIX.toList ++ (file.drop (cursor s) ++ BOUNDARY_EOF.toList))
      (file.length - cursor s + 3) := by
  cases caps with
  | nil => simp at hlen
  | cons cap caps =>
    simp only [List.length_cons] at hlen
    have hstep := read_audio_headers json file y s cap hs
    have hc : cursor { s with next_action := AUDIO_DATA } = cursor s := rfl
    have hnext := pull_audio_data json file caps false { s with next_action := AUDIO_DATA } rfl
      (by rw [hc]; exact hwf) (fun c hc => hpos c (by simp [hc])) (by rw [hc]; omega)
    have hcons := finished_run_cons
      (data_source_read_callback json file y s cap) _ _ _ (by rw [hstep]) hnext
    have hrun : pull_until_eof json file (cap :: caps) y s =
        data_source_read_callback json file y s cap ::
          pull_until_eof json file caps false { s with next_action := AUDIO_DATA } := by
      conv_lhs => rw [pull_until_eof]
      simp [hstep]
    rw [hrun]
    have hw : (data_source_read_callback json file y s cap).written = AUDIO_PART_PREFIX.toList := by
      rw [hstep]
    rw [hc, hw] at hcons
    exact hcons

theorem pull_meta (json file : List Char) (caps : List Nat) (y : Bool)
    (s : alexa_stream_t) (hs : s.next_action = META_HEADERS ∨ s.next_action = META_JSON)
    (hwf : cursor s ≤ file.length)
    (hpos : ∀ c ∈ caps, 0 < c) (hlen : file.length - cursor s + 4 ≤ caps.length) :
    finished_run (pull_until_eof json file caps y s)
      ((JSON_PART_PREFIX.toList ++ json) ++
        ( AUDIO_PART_PREFIX.toList ++ (file.drop (cursor s) ++ BOUNDARY_EOF.toList)))
      (file.length - cursor s + 4) := by
  cases caps with
  | nil => simp at hlen
  | cons cap caps =>
    simp only [List.length_cons] at hlen
    have hstep := read_meta_headers json file y s cap hs
    have hc : cursor { s with next_action := AUDIO_HEADERS } = cursor s := rfl
    have hnext := pull_audio_headers json file caps false { s with next_action := AUDIO_HEADERS }
      rfl (by rw [hc]; exact hwf) (fun c hc => hpos c (by simp [hc])) (by rw [hc]; omega)
    have hcons := finished_run_cons
      (data_source_read_callback json file y s cap) _ _ _ (by rw [hstep]) hnext
    have hrun : pull_until_eof json file (cap :: caps) y s =
        data_source_read_callback json file y s cap ::
          pull_until_eof json file caps false { s with next_action := AUDIO_HEADERS } := by
      conv_lhs => rw [pull_until_eof]
      simp [hstep]
    rw [hrun]
    have hw : (data_source_read_callback json file y s cap).written
        = JSON_PART_PREFIX.toList ++ json := by
      rw [hstep]
    rw [hc, hw] at hcons
    exact hcons

/-- From any stream whose cursor lies inside the file, a run with positive
capacities, long enough, emits exactly the bytes still due and reports the final
result once. -/
theorem pull_from_any (json file : List Char) (caps : List Nat) (y : Bool)
    (s : alexa_stream_t) (hwf : cursor s ≤ file.length)
    (hpos : ∀ c ∈ caps, 0 < c) (hlen : calls_needed file s ≤ caps.length) :
    finished_run (pull_until_eof json file caps y s) (remaining_body json file s)
      (calls_needed file s) := by
  cases hs : s.next_action with
  | META_HEADERS =>
    simp only [calls_needed, remaining_body, hs] at hlen ⊢
    have h := pull_meta json file caps y s (Or.inl hs) hwf hpos hlen
    simpa [List.append_assoc] using h
  | META_JSON =>
    simp only [calls_needed, remaining_body, hs] at hlen ⊢
    have h := pull_meta json file caps y s (Or.inr hs) hwf hpos hlen
    simpa [List.append_assoc] using h
  | AUDIO_HEADERS =>
    simp only [calls_needed, remaining_body, hs] at hlen ⊢
    have h := pull_audio_headers json file caps y s hs hwf hpos hlen
    simpa [List.append_assoc] using h
  | AUDIO_DATA =>
    simp only [calls_needed, remaining_body, hs] at hlen ⊢
    exact pull_audio_data json file caps y s hs hwf hpos hlen
  | DONE =>
    simp only [calls_needed, remaining_body, hs] at hlen ⊢
    cases caps with
    | nil => simp at hlen
    | cons cap caps => exact finished_run_done json file cap caps y s hs

/-! ## C1: chunk-size invariance of the outbound generator -/

/-- Counting every byte a call copies, whether or not it fits the capacity
offered: from `next_action = META_HEADERS` with an unset cursor, a run with
positive capacities, `file.length + 4` of them at least, copies exactly
`JSON_PART_PREFIX ++ json ++ AUDIO_PART_PREFIX ++ file ++ BOUNDARY_EOF` and ends
with the first EOF after at most `file.length + 4` calls. -/
theorem pull_fresh_copies_body (json file : List Char) (caps : List Nat) (yield : Bool)
    (s : alexa_stream_t)
    (hstart : s.next_action = META_HEADERS) (hcur : s.file_pos = none)
    (hpos : ∀ c ∈ caps, 0 < c) (hlen : file.length + 4 ≤ caps.length) :
    emitted (pull_until_eof json file caps yield s) = expected_body json file ∧
    (pull_until_eof json file caps yield s).length ≤ file.length + 4 ∧
    final_reports (pull_until_eof json file caps yield s) = 1 ∧
    ∃ r, (pull_until_eof json file caps yield s).getLast? = some r ∧ r.eof = true := by
  have hc : cursor s = 0 := by simp [cursor, hcur]
  have h := pull_meta json file caps yield s (Or.inl hstart) (by rw [hc]; omega) hpos
    (by rw [hc]; simpa using hlen)
  rw [hc] at h
  obtain ⟨h1, h2, h3, r, h4, h5, _⟩ := h
  refine ⟨?_, by simpa using h2, h3, r, h4, h5⟩
  rw [h1]
  simp [expected_body, List.append_assoc]

/-- A call stays within the offered buffer when the capacity is at least the
longest literal write, `JSON_PART_PREFIX` followed by the JSON text. -/
theorem read_within_large_buffer (json file : List Char) (y : Bool) (s : alexa_stream_t)
    (cap : Nat) (hcap : 120 + json.length ≤ cap) :
    (data_source_read_callback json file y s cap).bytes_written ≤ cap := by
  cases hs : s.next_action with
  | META_HEADERS =>
    rw [read_meta_headers json file y s cap (Or.inl hs)]
    simp only [read_result.bytes_written, List.length_append]
    exact hcap
  | META_JSON =>
    rw [read_meta_headers json file y s cap (Or.inr hs)]
    simp only [read_result.bytes_written, List.length_append]
    exact hcap
  | AUDIO_HEADERS =>
    rw [read_audio_headers json file y s cap hs]
    show 110 ≤ cap
    omega
  | AUDIO_DATA =>
    rw [read_audio_data json file y s cap hs]
    simp only [read_result.bytes_written, List.length_take, List.length_drop]
    omega
  | DONE =>
    rw [read_done json file y s cap hs]
    show 24 ≤ cap
    omega

/-- C1 (evaluation of the code at capacity 2, below every fixed literal). From
`next_action = META_HEADERS` with an unset cursor, a five-byte payload and the
JSON text `{}`, the calls up to the first EOF report 122, 110, 2, 2, 1 and 24
bytes: the first, the second and the last call copy more than the two bytes
the transport offered, so what fits the offered buffers, at most two bytes of
each call and 11 bytes in all, is not the expected body of 261 bytes. -/
theorem C1_small_capacity_overruns :
    (pull_until_eof "{}".toList "abcde".toList [2, 2, 2, 2, 2, 2, 2, 2, 2] false
        fresh_stream).map read_result.bytes_written = [122, 110, 2, 2, 1, 24] ∧
    (pull_until_eof "{}".toList "abcde".toList [2, 2, 2, 2, 2, 2, 2, 2, 2] false
        fresh_stream).map (fun r => decide (r.bytes_written ≤ 2))
      = [false, false, true, true, true, false] ∧
    2 < (data_source_read_callback "{}".toList "abcde".toList false
        fresh_stream 2).bytes_written ∧
    (expected_body "{}".toList "abcde".toList).length = 261 ∧
    (((pull_until_eof "{}".toList "abcde".toList [2, 2, 2, 2, 2, 2, 2, 2, 2] false
        fresh_stream).map (fun r => r.written.take 2)).flatten).length = 11 := by
  refine ⟨?_, ?_, ?_, ?_, ?_⟩
  · rfl
  · rfl
  · show 2 < 122
    omega
  · simp only [expected_body, List.length_append]
    rfl
  · rfl

/-! ## C2: `next_action` never regresses; the final result -/

theorem read_no_regress (json file : List Char) (y : Bool) (s : alexa_stream_t) (cap : Nat) :
    s.next_action.toNat ≤ (data_source_read_callback json file y s cap).stream.next_action.toNat := by
  cases hs : s.next_action with
  | META_HEADERS => rw [read_meta_headers json file y s cap (Or.inl hs)]; simp [part_type_t.toNat]
  | META_JSON => rw [read_meta_headers json file y s cap (Or.inr hs)]; simp [part_type_t.toNat]
  | AUDIO_HEADERS => rw [read_audio_headers json file y s cap hs]; simp [part_type_t.toNat]
  | AUDIO_DATA =>
    rw [read_audio_data json file y s cap hs]
    by_cases h : cap > file.length - cursor s <;> simp [part_type_t.toNat, h]
  | DONE => rw [read_done json file y s cap hs]; simp [part_type_t.toNat, hs]

theorem read_eof_iff (json file : List Char) (y : Bool) (s : alexa_stream_t) (cap : Nat) :
    (data_source_read_callback json file y s cap).eof = true ↔ s.next_action = DONE := by
  cases hs : s.next_action with
  | META_HEADERS => rw [read_meta_headers json file y s cap (Or.inl hs)]; simp
  | META_JSON => rw [read_meta_headers json file y s cap (Or.inr hs)]; simp
  | AUDIO_HEADERS => rw [read_audio_headers json file y s cap hs]; simp
  | AUDIO_DATA => rw [read_audio_data json file y s cap hs]; simp
  | DONE => rw [read_done json file y s cap hs]; simp

theorem pull_until_eof_final_le (json file : List Char) :
    ∀ (caps : List Nat) (y : Bool) (s : alexa_stream_t),
      final_reports (pull_until_eof json file caps y s) ≤ 1 := by
  intro caps
  induction caps with
  | nil => intro y s; simp [pull_until_eof, final_reports]
  | cons cap caps ih =>
    intro y s
    rw [pull_until_eof]
    by_cases h : (data_source_read_callback json file y s cap).eof = true
    · simp [h, final_reports]
    · have h2 := ih (data_source_read_callback json file y s cap).yield
        (data_source_read_callback json file y s cap).stream
      simp only [Bool.not_eq_true] at h
      simpa [h, final_reports] using h2

/-- C2. One call of
`data_source_read_callback` never moves `next_action` backwards in the order
`META_HEADERS < META_JSON < AUDIO_HEADERS < AUDIO_DATA < DONE`.  A call reports
the final result (EOF flag together with `BOUNDARY_EOF`) exactly when it is
made with `next_action = DONE`, and it leaves the stream unchanged, so `DONE`
is absorbing.  In a sequence of calls that ends at the first call that sets
the EOF flag the final result is reported at most once, and exactly once when
the cursor lies inside the file, the capacities are positive and
`calls_needed` of them are offered. -/
theorem C2_no_regress_final_once (json file : List Char) (y : Bool) (s : alexa_stream_t)
    (cap : Nat) (caps : List Nat) :
    s.next_action.toNat ≤ (data_source_read_callback json file y s cap).stream.next_action.toNat ∧
    ((data_source_read_callback json file y s cap).eof = true ↔ s.next_action = DONE) ∧
    (s.next_action = DONE →
      (data_source_read_callback json file y s cap).written = BOUNDARY_EOF.toList ∧
      (data_source_read_callback json file y s cap).stream = s) ∧
    final_reports (pull_until_eof json file caps y s) ≤ 1 ∧
    (cursor s ≤ file.length → (∀ c ∈ caps, 0 < c) → calls_needed file s ≤ caps.length →
      final_reports (pull_until_eof json file caps y s) = 1) := by
  refine ⟨read_no_regress json file y s cap, read_eof_iff json file y s cap, ?_,
    pull_until_eof_final_le json file caps y s, ?_⟩
  · intro hs
    rw [read_done json file y s cap hs]
    exact ⟨rfl, rfl⟩
  · intro hwf hpos hlen
    exact (pull_from_any json file caps y s hwf hpos hlen).2.2.1

/-- C2 at a concrete input: a three-byte payload pulled with capacity 128, which
every write fits. -/
theorem C2_no_regress_final_once_witness :
    final_reports (pull_until_eof "{}".toList "abc".toList
      [128, 128, 128, 128, 128, 128, 128] false fresh_stream) = 1 :=
  (C2_no_regress_final_once "{}".toList "abc".toList false fresh_stream 128
    [128, 128, 128, 128, 128, 128, 128]).2.2.2.2 (by decide) (by decide) (by decide)

/-! ## C3: the exact-fill edge case -/

/-- C3, as the code has it. For every `AUDIO_DATA` call in which the remaining audio length
equals the capacity, that call writes all remaining audio and leaves
`next_action = AUDIO_DATA`; the subsequent call, offered a positive capacity,
writes zero bytes, does not set the EOF flag and moves to `DONE`; the call after
it delivers `BOUNDARY_EOF` with the EOF flag and no audio.  The run up to the
first EOF consists of exactly these three calls, so the terminator is emitted
exactly once. -/
theorem C3_exact_fill (json file : List Char) (y : Bool) (s : alexa_stream_t)
    (cap c2 c3 : Nat) (caps : List Nat)
    (hs : s.next_action = AUDIO_DATA) (hwf : cursor s ≤ file.length)
    (hfill : file.length - cursor s = cap) (hc2 : 0 < c2) :
    ∃ r1 r2 r3 : read_result,
      r1 = data_source_read_callback json file y s cap ∧
      r2 = data_source_read_callback json file r1.yield r1.stream c2 ∧
      r3 = data_source_read_callback json file r2.yield r2.stream c3 ∧
      r1.written = file.drop (cursor s) ∧ r1.eof = false ∧ r1.stream.next_action = AUDIO_DATA ∧
      r2.written = [] ∧ r2.eof = false ∧ r2.stream.next_action = DONE ∧
      r3.written = BOUNDARY_EOF.toList ∧ r3.eof = true ∧
      pull_until_eof json file (cap :: c2 :: c3 :: caps) y s = [r1, r2, r3] ∧
      emitted [r1, r2, r3] = file.drop (cursor s) ++ BOUNDARY_EOF.toList ∧
      final_reports [r1, r2, r3] = 1 := by
  have h1 := read_audio_data json file y s cap hs
  have hmin : min cap (file.length - cursor s) = cap := by omega
  have hgt : ¬ cap > file.length - cursor s := by omega
  simp only [hmin, hgt, if_false] at h1
  have htake : List.take cap (List.drop (cursor s) file) = List.drop (cursor s) file := by
    apply List.take_of_length_le
    simp [List.length_drop]; omega
  have hs1 : (data_source_read_callback json file y s cap).stream.next_action = AUDIO_DATA := by
    rw [h1]
  have hcur1 : cursor (data_source_read_callback json file y s cap).stream = cursor s + cap := by
    rw [h1]; rfl
  have h2 := read_audio_data json file (data_source_read_callback json file y s cap).yield
    (data_source_read_callback json file y s cap).stream c2 hs1
  have hrem : file.length - (cursor s + cap) = 0 := by omega
  have hgt2 : c2 > 0 := hc2
  simp only [hcur1, hrem, Nat.min_zero, Nat.zero_min, hgt2, if_true, List.take_zero,
    Nat.add_zero] at h2
  have hs2 : (data_source_read_callback json file
      (data_source_read_callback json file y s cap).yield
      (data_source_read_callback json file y s cap).stream c2).stream.next_action = DONE := by
    rw [h2]
  have h3 := read_done json file
    (data_source_read_callback json file
      (data_source_read_callback json file y s cap).yield
      (data_source_read_callback json file y s cap).stream c2).yield
    (data_source_read_callback json file
      (data_source_read_callback json file y s cap).yield
      (data_source_read_callback json file y s cap).stream c2).stream c3 hs2
  refine ⟨_, _, _, rfl, rfl, rfl, ?_, ?_, hs1, ?_, ?_, hs2, ?_, ?_, ?_, ?_, ?_⟩
  · rw [h1]; exact htake
  · rw [h1]
  · rw [h2]
  · rw [h2]
  · rw [h3]
  · rw [h3]
  · have e1 : (data_source_read_callback json file y s cap).eof = false := by rw [h1]
    have e2 : (data_source_read_callback json file
        (data_source_read_callback json file y s cap).yield
        (data_source_read_callback json file y s cap).stream c2).eof = false := by rw [h2]
    have e3 : (data_source_read_callback json file
        (data_source_read_callback json file
          (data_source_read_callback json file y s cap).yield
          (data_source_read_callback json file y s cap).stream c2).yield
        (data_source_read_callback json file
          (data_source_read_callback json file y s cap).yield
          (data_source_read_callback json file y s cap).stream c2).stream c3).eof = true := by
      rw [h3]
    simp [pull_until_eof, e1, e2, e3]
  · have w1 : (data_source_read_callback json file y s cap).written
        = file.drop (cursor s) := by rw [h1]; exact htake
    have w2 : (data_source_read_callback json file
        (data_source_read_callback json file y s cap).yield
        (data_source_read_callback json file y s cap).stream c2).written = [] := by rw [h2]
    simp [emitted, w1, w2, h3]
  · have e1 : (data_source_read_callback json file y s cap).eof = false := by rw [h1]
    have e2 : (data_source_read_callback json file
        (data_source_read_callback json file y s cap).yield
        (data_source_read_callback json file y s cap).stream c2).eof = false := by rw [h2]
    simp [final_reports, e1, e2, h3]

/-- C3 at a concrete input: four bytes remaining, capacity four. -/
theorem C3_exact_fill_witness :
    ∃ r1 r2 r3 : read_result,
      r1 = data_source_read_callback "{}".toList "abcd".toList false audio_data_stream 4 ∧
      r2 = data_source_read_callback "{}".toList "abcd".toList r1.yield r1.stream 4 ∧
      r3 = data_source_read_callback "{}".toList "abcd".toList r2.yield r2.stream 4 ∧
      r1.written = "abcd".toList.drop (cursor audio_data_stream) ∧ r1.eof = false ∧
      r1.stream.next_action = AUDIO_DATA ∧
      r2.written = [] ∧ r2.eof = false ∧ r2.stream.next_action = DONE ∧
      r3.written = BOUNDARY_EOF.toList ∧ r3.eof = true ∧
      pull_until_eof "{}".toList "abcd".toList (4 :: 4 :: 4 :: []) false audio_data_stream
        = [r1, r2, r3] ∧
      emitted [r1, r2, r3]
        = "abcd".toList.drop (cursor audio_data_stream) ++ BOUNDARY_EOF.toList ∧
      final_reports [r1, r2, r3] = 1 :=
  C3_exact_fill "{}".toList "abcd".toList false audio_data_stream 4 4 4 [] rfl (by decide)
    (by decide) (by decide)

/-- Against C3 as worded: with four bytes remaining and capacity four the first
call writes all four bytes, but the subsequent call neither sets the EOF flag
nor delivers the body terminator: it writes nothing. -/
theorem C3_subsequent_call_not_final :
    (data_source_read_callback "{}".toList "abcd".toList false audio_data_stream 4).written
      = "abcd".toList ∧
    (data_source_read_callback "{}".toList "abcd".toList true
      (data_source_read_callback "{}".toList "abcd".toList false
        audio_data_stream 4).stream 4).eof = false ∧
    (data_source_read_callback "{}".toList "abcd".toList true
      (data_source_read_callback "{}".toList "abcd".toList false
        audio_data_stream 4).stream 4).written = [] := by
  refine ⟨?_, ?_, ?_⟩ <;> rfl

/-! ## Lemmas on `strstr` and the boundary extraction -/

theorem strstr_cons (c : Char) (rest needle : List Char) :
    strstr (c :: rest) needle =
      if needle.isPrefixOf (c :: rest) then some 0
      else (strstr rest needle).map (fun i => i + 1) := by
  rw [strstr]

theorem strstr_none_of_not_infix (needle : List Char) (hne : needle ≠ []) :
    ∀ h : List Char, ¬ needle <:+: h → strstr h needle = none := by
  intro h
  induction h with
  | nil => intro _; simp [strstr, hne]
  | cons c rest ih =>
    intro hni
    rw [strstr_cons]
    have hp : needle.isPrefixOf (c :: rest) = false := by
      cases hb : needle.isPrefixOf (c :: rest) with
      | false => rfl
      | true => exact absurd (List.isPrefixOf_iff_prefix.mp hb).isInfix hni
    have hr : strstr rest needle = none := ih (fun h2 => hni (List.infix_cons h2))
    simp [hp, hr]

theorem strstr_first (needle : List Char) (hne : needle ≠ []) (suf : List Char) :
    ∀ pre : List Char,
      (∀ j, j < pre.length → ¬ needle <+: (pre ++ needle ++ suf).drop j) →
      strstr (pre ++ needle ++ suf) needle = some pre.length := by
  intro pre
  induction pre with
  | nil =>
    intro _
    cases hn : needle with
    | nil => exact absurd hn hne
    | cons c rest =>
      simp only [List.nil_append, List.cons_append, List.length_nil]
      rw [strstr_cons]
      have hp : (c :: rest).isPrefixOf (c :: (rest ++ suf)) = true := by
        rw [List.isPrefixOf_iff_prefix]
        exact List.prefix_append (c :: rest) suf
      simp [hp]
  | cons p pre ih =>
    intro hfirst
    simp only [List.cons_append, List.length_cons]
    rw [strstr_cons]
    have h0 := hfirst 0 (by simp)
    have hp : needle.isPrefixOf (p :: (pre ++ needle ++ suf)) = false := by
      cases hb : needle.isPrefixOf (p :: (pre ++ needle ++ suf)) with
      | false => rfl
      | true =>
        exact absurd (by simpa using List.isPrefixOf_iff_prefix.mp hb) h0
    have hr := ih (fun j hj => by
      have := hfirst (j + 1) (by simp; omega)
      simpa using this)
    rw [hp, hr]
    rfl

theorem strstr_semicolon (rest : List Char) :
    ∀ T : List Char, ';' ∉ T → strstr (T ++ ';' :: rest) ";".toList = some T.length := by
  intro T
  induction T with
  | nil => intro _; simp [strstr_cons, List.isPrefixOf]
  | cons c T ih =>
    intro hT
    have hc : c ≠ ';' := fun h => hT (by simp [h])
    have hT2 : ';' ∉ T := fun h => hT (by simp [h])
    simp only [List.cons_append, List.length_cons]
    rw [strstr_cons, ih hT2]
    have hp : ";".toList.isPrefixOf (c :: (T ++ ';' :: rest)) = false := by
      have hc2 : ¬ ';' = c := fun h => hc h.symm
      simp [List.isPrefixOf, hc2]
    rw [hp]
    rfl

theorem header_callback_content_type (a : alexa_session_t) (stream : stream_ref)
    (frame : nghttp2_frame) (value : List Char)
    (hf : frame.hd_type = .NGHTTP2_HEADERS) (hc : frame.cat = .NGHTTP2_HCAT_RESPONSE) :
    header_callback a stream frame "content-type".toList value =
      parse_boundary_term a stream "content-type".toList value := by
  have hn : "content-type".toList ≠ ":status".toList := by decide
  simp [header_callback, hf, hc, hn]

theorem parse_boundary_found (a : alexa_session_t) (stream : stream_ref)
    (pre T rest : List Char)
    (hfirst : ∀ j, j < pre.length →
      ¬ "boundary=".toList <+: (pre ++ "boundary=".toList ++ (T ++ ';' :: rest)).drop j)
    (hT : ';' ∉ T) :
    parse_boundary_term a stream "content-type".toList
        (pre ++ "boundary=".toList ++ (T ++ ';' :: rest)) =
      init_multipart_parser_fn a stream ('-' :: '-' :: T) := by
  have h1 := strstr_first "boundary=".toList (by decide) (T ++ ';' :: rest) pre hfirst
  have hb : "boundary=".length = 9 := rfl
  have hdrop : (pre ++ "boundary=".toList ++ (T ++ ';' :: rest)).drop
      (pre.length + "boundary=".length) = T ++ ';' :: rest := by
    have : pre.length + "boundary=".length = (pre ++ "boundary=".toList).length := by
      simp [hb]
    rw [this, List.drop_left]
  have h2 := strstr_semicolon rest T hT
  have hdrop2 : (pre ++ "boundary=".toList ++ (T ++ ';' :: rest)).drop
      (pre.length + "boundary=".length - 2) = 'y' :: '=' :: (T ++ ';' :: rest) := by
    have e : pre ++ "boundary=".toList ++ (T ++ ';' :: rest)
        = (pre ++ "boundar".toList) ++ ('y' :: '=' :: (T ++ ';' :: rest)) := by
      simp
    have l : pre.length + "boundary=".length - 2 = (pre ++ "boundar".toList).length := by
      simp [hb]
    rw [l, e, List.drop_left]
  have hlen : pre.length + "boundary=".length + T.length - (pre.length + "boundary=".length - 2)
      = T.length + 2 := by
    rw [hb]; omega
  simp only [parse_boundary_term, if_true, h1, hdrop, h2, hdrop2, hlen, strndup]
  congr 1
  simp [List.take_append]

theorem stream_set_stream (a : alexa_session_t) (r : stream_ref) (s : alexa_stream_t) :
    (a.set_stream r s).stream r = s := by
  cases r <;> rfl

theorem player_set_stream (a : alexa_session_t) (r : stream_ref) (s : alexa_stream_t) :
    (a.set_stream r s).player_config = a.player_config := by
  cases r <;> rfl

theorem event_group_set_stream (a : alexa_session_t) (r : stream_ref) (s : alexa_stream_t) :
    (a.set_stream r s).event_group = a.event_group := by
  cases r <;> rfl

/-! ## C4: the spec's boundary example -/

/-- C4 (evaluation of the code at the spec's example). For the content-type value
`multipart/form-data; boundary=XYZ` the boundary extraction of `header_callback`
finds no `;` after the token, initialises no parser and leaves the session
unchanged; with a `;` after the token the parser is initialised with `--XYZ`. -/
theorem C4_spec_example_not_extracted :
    header_callback connected_session .downchannel (response_headers 1)
        "content-type".toList "multipart/form-data; boundary=XYZ".toList = connected_session ∧
    (header_callback connected_session .downchannel (response_headers 1)
        "content-type".toList
        "multipart/form-data; boundary=XYZ".toList).downchannel.m_parser_ptr = none ∧
    (header_callback connected_session .downchannel (response_headers 1)
        "content-type".toList
        "multipart/form-data; boundary=XYZ;".toList).downchannel.m_parser_ptr
      = some "--XYZ".toList := by
  refine ⟨?_, ?_, ?_⟩ <;> decide

/-! ## C5: boundary extraction -/

/-- C5. For every content-type value of a response header: if `boundary=` does not
occur in it, `header_callback` leaves the session unchanged (no boundary, the
stream's parser stays as it was, unset when it was unset); if the first
occurrence of `boundary=` is followed by a token `T` without `;` and then a `;`,
the stream's parser is initialised by `init_multipart_parser` with exactly `--`
followed by `T`. -/
theorem C5_boundary_extraction (a : alexa_session_t) (stream : stream_ref)
    (frame : nghttp2_frame) (value pre T rest : List Char)
    (hf : frame.hd_type = .NGHTTP2_HEADERS) (hc : frame.cat = .NGHTTP2_HCAT_RESPONSE) :
    (¬ "boundary=".toList <:+: value →
      header_callback a stream frame "content-type".toList value = a) ∧
    (value = pre ++ "boundary=".toList ++ (T ++ ';' :: rest) →
      (∀ j, j < pre.length → ¬ "boundary=".toList <+: value.drop j) →
      ';' ∉ T →
      header_callback a stream frame "content-type".toList value
        = init_multipart_parser_fn a stream ("--".toList ++ T) ∧
      ((header_callback a stream frame "content-type".toList value).stream stream).m_parser_ptr
        = some ("--".toList ++ T)) := by
  rw [header_callback_content_type a stream frame value hf hc]
  constructor
  · intro hno
    have h := strstr_none_of_not_infix "boundary=".toList (by decide) value hno
    simp only [parse_boundary_term, if_true, h]
  · intro hv hfirst hT
    subst hv
    have h := parse_boundary_found a stream pre T rest hfirst hT
    rw [h]
    refine ⟨rfl, ?_⟩
    simp only [init_multipart_parser_fn, stream_set_stream]
    rfl

/-- C5 at a concrete input: the content-type value of a directives response. -/
theorem C5_boundary_extraction_witness :
    header_callback connected_session .downchannel (response_headers 1) "content-type".toList
        ("multipart/related; ".toList ++ "boundary=".toList
          ++ ("------abcde123".toList ++ ';' :: " type=application/json".toList))
      = init_multipart_parser_fn connected_session .downchannel
          ("--".toList ++ "------abcde123".toList) ∧
    ((header_callback connected_session .downchannel (response_headers 1) "content-type".toList
        ("multipart/related; ".toList ++ "boundary=".toList
          ++ ("------abcde123".toList ++ ';' :: " type=application/json".toList))).stream
            .downchannel).m_parser_ptr
      = some ("--".toList ++ "------abcde123".toList) :=
  (C5_boundary_extraction connected_session .downchannel (response_headers 1)
    ("multipart/related; ".toList ++ "boundary=".toList
      ++ ("------abcde123".toList ++ ';' :: " type=application/json".toList))
    "multipart/related; ".toList "------abcde123".toList " type=application/json".toList
    rfl rfl).2 rfl (by decide) (by decide)

/-! ## C6: classification of a part header value -/

/-- C6 (evaluation of the code at header values that differ from
`application/octet-stream`). `on_header_value` compares only the first `length`
characters (`strncmp`), so the proper prefix `application` and the empty value
are classified as audio: `current_part` becomes `AUDIO_DATA`, the sink's
end-of-stream mark is cleared and the player is started; `application/json` is
not. -/
theorem C6_prefix_classified_as_audio :
    ((on_header_value connected_session .downchannel "application".toList).stream
        .downchannel).current_part = AUDIO_DATA ∧
    (on_header_value connected_session .downchannel "application".toList).player_config
      = { eof := false, content_type := .AUDIO_MPEG, calls := [.audio_player_start] } ∧
    ((on_header_value connected_session .downchannel []).stream
        .downchannel).current_part = AUDIO_DATA ∧
    (on_header_value connected_session .downchannel []).player_config
      = { eof := false, content_type := .AUDIO_MPEG, calls := [.audio_player_start] } ∧
    on_header_value connected_session .downchannel "application/json".toList
      = connected_session := by
  refine ⟨?_, ?_, ?_, ?_, ?_⟩ <;> decide

/-! ## C7: an audio part reaches the sink -/

theorem dispatch_all_append (r : stream_ref) (a : alexa_session_t)
    (e1 e2 : List multipart_event) :
    dispatch_all r a (e1 ++ e2) = dispatch_all r (dispatch_all r a e1) e2 := by
  simp [dispatch_all, List.foldl_append]

/-- Part-data chunks dispatched while `current_part = AUDIO_DATA` are handed to
`audio_stream_consumer` one by one; nothing else changes. -/
theorem dispatch_chunks_audio (r : stream_ref) :
    ∀ (chunks : List (List Char)) (a : alexa_session_t),
      (a.stream r).current_part = AUDIO_DATA →
      dispatch_all r a (chunks.map multipart_event.part_data) =
        { a with player_config := { a.player_config with
            calls := a.player_config.calls ++ chunks.map player_call.audio_stream_consumer } } := by
  intro chunks
  induction chunks with
  | nil => intro a _; simp [dispatch_all]
  | cons c cs ih =>
    intro a ha
    have hstep : dispatch r a (.part_data c) =
        { a with player_config := { a.player_config with
            calls := a.player_config.calls ++ [.audio_stream_consumer c] } } := by
      simp [dispatch, on_part_data, ha]
    have ha2 : (({ a with player_config := { a.player_config with
        calls := a.player_config.calls ++ [.audio_stream_consumer c] } } :
          alexa_session_t).stream r).current_part = AUDIO_DATA := by
      cases r <;> exact ha
    have h := ih _ ha2
    simp only [dispatch_all, List.map_cons, List.foldl_cons] at h ⊢
    rw [hstep, h]
    simp

theorem strncmp_octet_stream :
    strncmp "application/octet-stream".toList "application/octet-stream".toList
      "application/octet-stream".toList.length = 0 := by
  decide

theorem on_header_value_octet_stream (a : alexa_session_t) (r : stream_ref) :
    ((on_header_value a r "application/octet-stream".toList).stream r).current_part
        = AUDIO_DATA ∧
    (on_header_value a r "application/octet-stream".toList).player_config
      = { eof := false, content_type := .AUDIO_MPEG,
          calls := a.player_config.calls ++ [.audio_player_start] } := by
  have h := strncmp_octet_stream
  simp only [on_header_value, h, if_true]
  cases r <;> exact ⟨rfl, rfl⟩

theorem bytes_of_consumer_calls (cs : List (List Char)) :
    (cs.map player_call.audio_stream_consumer).map player_call.bytes = cs := by
  induction cs with
  | nil => rfl
  | cons c cs ih => simp only [List.map_cons, ih, player_call.bytes]

theorem fed_bytes_chunks (p : player_t) (e : Bool) (t : content_type_t)
    (chunks : List (List Char)) :
    fed_bytes { eof := e, content_type := t,
                calls := p.calls ++ (player_call.audio_player_start ::
                  (chunks.map player_call.audio_stream_consumer)) }
      = fed_bytes p ++ chunks.flatten := by
  simp only [fed_bytes, List.map_append, List.map_cons, List.flatten_append, List.flatten_cons,
    bytes_of_consumer_calls, player_call.bytes, List.nil_append]

/-- The session after one audio part has been dispatched on a stream whose
parser has just been initialised. -/
theorem dispatch_audio_part (a : alexa_session_t) (r : stream_ref) (boundary : List Char)
    (chunks : List (List Char)) :
    (dispatch_all r (init_multipart_parser_fn a r boundary)
        (multipart_event.header_value "application/octet-stream".toList
          :: chunks.map multipart_event.part_data)).player_config
      = { eof := false, content_type := .AUDIO_MPEG,
          calls := a.player_config.calls ++ player_call.audio_player_start ::
            chunks.map player_call.audio_stream_consumer } ∧
    (dispatch_all r (init_multipart_parser_fn a r boundary) (audio_part_events chunks)).player_config
      = { eof := true, content_type := .AUDIO_MPEG,
          calls := a.player_config.calls ++ player_call.audio_player_start ::
            chunks.map player_call.audio_stream_consumer } := by
  obtain ⟨h1, h2⟩ := on_header_value_octet_stream (init_multipart_parser_fn a r boundary) r
  have hp : (init_multipart_parser_fn a r boundary).player_config = a.player_config := by
    simp [init_multipart_parser_fn, player_set_stream]
  rw [hp] at h2
  have hchunks := dispatch_chunks_audio r chunks
    (on_header_value (init_multipart_parser_fn a r boundary) r
      "application/octet-stream".toList) h1
  have hhead : dispatch_all r (init_multipart_parser_fn a r boundary)
      (multipart_event.header_value "application/octet-stream".toList
        :: chunks.map multipart_event.part_data)
      = dispatch_all r (on_header_value (init_multipart_parser_fn a r boundary) r
          "application/octet-stream".toList) (chunks.map multipart_event.part_data) := by
    simp only [dispatch_all, List.foldl_cons, dispatch]
  have hcur : ((dispatch_all r (init_multipart_parser_fn a r boundary)
      (multipart_event.header_value "application/octet-stream".toList
        :: chunks.map multipart_event.part_data)).stream r).current_part = AUDIO_DATA := by
    rw [hhead, hchunks]
    cases r <;> exact h1
  have hfirst : (dispatch_all r (init_multipart_parser_fn a r boundary)
      (multipart_event.header_value "application/octet-stream".toList
        :: chunks.map multipart_event.part_data)).player_config
      = { eof := false, content_type := .AUDIO_MPEG,
          calls := a.player_config.calls ++ player_call.audio_player_start ::
            chunks.map player_call.audio_stream_consumer } := by
    rw [hhead, hchunks]
    simp only [h2, List.append_assoc, List.singleton_append]
  refine ⟨hfirst, ?_⟩
  have hsplit : audio_part_events chunks
      = (multipart_event.header_value "application/octet-stream".toList
          :: chunks.map multipart_event.part_data) ++ [multipart_event.part_data_end] := by
    simp [audio_part_events]
  have hend : dispatch_all r (init_multipart_parser_fn a r boundary) (audio_part_events chunks)
      = on_part_data_end (dispatch_all r (init_multipart_parser_fn a r boundary)
          (multipart_event.header_value "application/octet-stream".toList
            :: chunks.map multipart_event.part_data)) r := by
    rw [hsplit, dispatch_all_append]
    rfl
  rw [hend]
  unfold on_part_data_end
  rw [if_pos hcur]
  show ({ (dispatch_all r (init_multipart_parser_fn a r boundary)
      (multipart_event.header_value "application/octet-stream".toList
        :: chunks.map multipart_event.part_data)).player_config with eof := true } : player_t) = _
  rw [hfirst]

/-! ## C7: scenario C -/

/-- C7. On a stream whose parser has just been initialised (`current_part =
META_HEADERS`), the dispatch events header-value `application/octet-stream`,
part-data chunks `c1..ck`, part-data-end start the player once, hand
`audio_stream_consumer` exactly the chunks in order, so that the sink is fed
`c1 ++ ... ++ ck` unmodified (N bytes, N the total length), with the
end-of-stream mark unset until the part-data-end event sets it; another split
`chunks2` of the same bytes feeds the sink the same bytes and leaves the same
end-of-stream mark. -/
theorem C7_audio_part_reaches_sink (a : alexa_session_t) (r : stream_ref)
    (boundary : List Char) (chunks chunks2 : List (List Char))
    (hsame : chunks2.flatten = chunks.flatten) :
    (dispatch_all r (init_multipart_parser_fn a r boundary)
        (audio_part_events chunks)).player_config.calls
      = a.player_config.calls ++ player_call.audio_player_start ::
          chunks.map player_call.audio_stream_consumer ∧
    fed_bytes (dispatch_all r (init_multipart_parser_fn a r boundary)
        (audio_part_events chunks)).player_config
      = fed_bytes a.player_config ++ chunks.flatten ∧
    (fed_bytes (dispatch_all r (init_multipart_parser_fn a r boundary)
        (audio_part_events chunks)).player_config).length
      = (fed_bytes a.player_config).length + chunks.flatten.length ∧
    (dispatch_all r (init_multipart_parser_fn a r boundary)
        (multipart_event.header_value "application/octet-stream".toList
          :: chunks.map multipart_event.part_data)).player_config.eof = false ∧
    (dispatch_all r (init_multipart_parser_fn a r boundary)
        (audio_part_events chunks)).player_config.eof = true ∧
    fed_bytes (dispatch_all r (init_multipart_parser_fn a r boundary)
        (audio_part_events chunks2)).player_config
      = fed_bytes (dispatch_all r (init_multipart_parser_fn a r boundary)
          (audio_part_events chunks)).player_config ∧
    (dispatch_all r (init_multipart_parser_fn a r boundary)
        (audio_part_events chunks2)).player_config.eof
      = (dispatch_all r (init_multipart_parser_fn a r boundary)
          (audio_part_events chunks)).player_config.eof := by
  obtain ⟨h1, h2⟩ := dispatch_audio_part a r boundary chunks
  obtain ⟨_, h4⟩ := dispatch_audio_part a r boundary chunks2
  have hfed := fed_bytes_chunks a.player_config true content_type_t.AUDIO_MPEG chunks
  have hfed2 := fed_bytes_chunks a.player_config true content_type_t.AUDIO_MPEG chunks2
  rw [h1, h2, h4]
  refine ⟨rfl, hfed, ?_, rfl, rfl, ?_, rfl⟩
  · rw [hfed, List.length_append]
  · rw [hfed2, hfed, hsame]

/-- C7 at a concrete input: five body bytes split as 2 + 3 and as 1 + 4. -/
theorem C7_audio_part_reaches_sink_witness :
    fed_bytes (dispatch_all .downchannel
        (init_multipart_parser_fn connected_session .downchannel "----bound1".toList)
        (audio_part_events ["ab".toList, "cde".toList])).player_config = "abcde".toList ∧
    fed_bytes (dispatch_all .downchannel
        (init_multipart_parser_fn connected_session .downchannel "----bound1".toList)
        (audio_part_events ["a".toList, "bcde".toList])).player_config
      = fed_bytes (dispatch_all .downchannel
        (init_multipart_parser_fn connected_session .downchannel "----bound1".toList)
        (audio_part_events ["ab".toList, "cde".toList])).player_config :=
  ⟨(C7_audio_part_reaches_sink connected_session .downchannel "----bound1".toList
      ["ab".toList, "cde".toList] ["a".toList, "bcde".toList] (by decide)).2.1,
   (C7_audio_part_reaches_sink connected_session .downchannel "----bound1".toList
      ["ab".toList, "cde".toList] ["a".toList, "bcde".toList] (by decide)).2.2.2.2.2.1⟩

/-! ## C8: parts after an audio part -/

/-- C8 (evaluation of the code at an audio part followed by a JSON part). The
chunk `{}` of the second part, whose only header value is `application/json`,
is handed to `audio_stream_consumer` like the audio chunk `mp3` before it:
`current_part` stays `AUDIO_DATA` after the audio part has ended. -/
theorem C8_part_after_audio_is_forwarded :
    (dispatch_all .downchannel
        (init_multipart_parser_fn connected_session .downchannel "----bound1".toList)
        (audio_part_events ["mp3".toList] ++
          [.part_data_begin, .header_field "Content-Type".toList,
           .header_value "application/json".toList, .headers_complete,
           .part_data "{}".toList, .part_data_end, .body_end])).player_config
      = { eof := true, content_type := .AUDIO_MPEG,
          calls := [.audio_player_start, .audio_stream_consumer "mp3".toList,
                    .audio_stream_consumer "{}".toList] } ∧
    ((dispatch_all .downchannel
        (init_multipart_parser_fn connected_session .downchannel "----bound1".toList)
        (audio_part_events ["mp3".toList])).stream .downchannel).current_part = AUDIO_DATA := by
  constructor <;> decide

/-! ## Lemmas on the event bits and the nghttp2 callbacks -/

theorem clear_auth_keeps_downchan (g : Nat) :
    xEventGroupClearBits g AUTH_TOKEN_VALID_BIT &&& DOWNCHAN_CONNECTED_BIT
      = g &&& DOWNCHAN_CONNECTED_BIT := by
  unfold xEventGroupClearBits
  rw [Nat.land_assoc]
  rfl

theorem set_bits_and_self (g c : Nat) : xEventGroupSetBits g c &&& c = c := by
  unfold xEventGroupSetBits
  apply Nat.eq_of_testBit_eq
  intro i
  simp only [Nat.testBit_and, Nat.testBit_or]
  cases g.testBit i <;> cases c.testBit i <;> rfl

theorem event_group_parse_boundary_term (a : alexa_session_t) (stream : stream_ref)
    (name value : List Char) :
    (parse_boundary_term a stream name value).event_group = a.event_group := by
  unfold parse_boundary_term
  split
  · split
    · rfl
    · dsimp only
      split
      · rfl
      · simp only [init_multipart_parser_fn, event_group_set_stream]
  · rfl

theorem parse_boundary_term_status (a : alexa_session_t) (stream : stream_ref)
    (value : List Char) :
    parse_boundary_term a stream ":status".toList value = a := by
  have hn : ":status".toList ≠ "content-type".toList := by decide
  simp only [parse_boundary_term, hn, if_false]

theorem header_callback_403 (a : alexa_session_t) (stream : stream_ref)
    (frame : nghttp2_frame) (value : List Char)
    (hf : frame.hd_type = .NGHTTP2_HEADERS) (hc : frame.cat = .NGHTTP2_HCAT_RESPONSE)
    (hid : frame.stream_id = a.downchannel.stream_id) (hv : atoi value = 403) :
    header_callback a stream frame ":status".toList value =
      { a with
        event_group := xEventGroupClearBits a.event_group AUTH_TOKEN_VALID_BIT
        downchannel := { a.downchannel with status := CONN_UNAUTHORIZED } } := by
  simp only [header_callback, hf, hc, hid, hv, if_true, and_self]

theorem header_callback_200 (a : alexa_session_t) (stream : stream_ref)
    (frame : nghttp2_frame) (value : List Char)
    (hf : frame.hd_type = .NGHTTP2_HEADERS) (hc : frame.cat = .NGHTTP2_HCAT_RESPONSE)
    (hid : frame.stream_id = a.downchannel.stream_id) (hv : atoi value = 200) :
    header_callback a stream frame ":status".toList value =
      { a with downchannel := { a.downchannel with status := CONN_OPEN } } := by
  have h403 : ¬ ((200 : Int) = 403) := by decide
  simp only [header_callback, hf, hc, hid, hv, if_true, and_self, h403, if_false,
    parse_boundary_term_status]

theorem header_callback_keeps_downchan_bit (a : alexa_session_t) (stream : stream_ref)
    (frame : nghttp2_frame) (name value : List Char) :
    (header_callback a stream frame name value).event_group &&& DOWNCHAN_CONNECTED_BIT
      = a.event_group &&& DOWNCHAN_CONNECTED_BIT := by
  unfold header_callback
  split
  · split
    · split
      · dsimp only
        split
        · exact clear_auth_keeps_downchan a.event_group
        · split
          · rw [event_group_parse_boundary_term]
          · rw [event_group_parse_boundary_term]
      · rw [event_group_parse_boundary_term]
    · rfl
  · rfl

theorem on_frame_recv_callback_eq (a : alexa_session_t) (frame : nghttp2_frame) :
    on_frame_recv_callback a frame =
      if frame.hd_type = .NGHTTP2_HEADERS ∧ frame.cat = .NGHTTP2_HCAT_RESPONSE ∧
          frame.stream_id = a.downchannel.stream_id then
        { a with event_group := xEventGroupSetBits a.event_group DOWNCHAN_CONNECTED_BIT }
      else a := by
  unfold on_frame_recv_callback
  split
  · rename_i hf
    by_cases hc : frame.cat = .NGHTTP2_HCAT_RESPONSE
    · by_cases hid : frame.stream_id = a.downchannel.stream_id
      · simp [hf, hc, hid]
      · simp [hf, hc, hid]
    · simp [hf, hc]
  · rename_i hf
    have hf2 : ¬ frame.hd_type = .NGHTTP2_HEADERS := fun h => hf h
    simp [hf2]

theorem send_speech_with_token (a : alexa_session_t) (h : http2_session_data_t)
    (ret id : Int) (token : List Char) (htok : a.auth_token = some token) :
    send_speech a h ret id =
      some ({ a with
              eventchannel := { a.eventchannel with
                next_action := META_HEADERS, file_pos := none, current_part := META_HEADERS,
                stream_id := id } },
            { h with calls := h.calls ++ [.nghttp_new_stream
                { uri := uri_events, method := "POST",
                  hdrs := [("authorization", build_auth_header token),
                           ("content-type", HDR_FORM_DATA.toList)],
                  data_provider := true }] },
            ret) := by
  simp only [send_speech, htok]

/-- C10, as the code has it. A response `:status` header with value 200 on the downchannel
stream sets the downchannel status to `CONN_OPEN` and leaves the event bits as
they were; no call of `header_callback` changes `DOWNCHAN_CONNECTED_BIT`.
`on_frame_recv_callback` sets the bit exactly for a complete response HEADERS
frame on the downchannel stream, whatever the status of that response, and
leaves the session unchanged for every other frame, in particular for a frame
of another stream. -/
theorem C10_downchannel_ready (a : alexa_session_t) (stream : stream_ref)
    (frame : nghttp2_frame) (name value : List Char) :
    (header_callback a stream frame name value).event_group &&& DOWNCHAN_CONNECTED_BIT
      = a.event_group &&& DOWNCHAN_CONNECTED_BIT ∧
    (frame.hd_type = .NGHTTP2_HEADERS → frame.cat = .NGHTTP2_HCAT_RESPONSE →
      frame.stream_id = a.downchannel.stream_id → atoi value = 200 →
      header_callback a stream frame ":status".toList value
        = { a with downchannel := { a.downchannel with status := CONN_OPEN } }) ∧
    on_frame_recv_callback a frame =
      (if frame.hd_type = .NGHTTP2_HEADERS ∧ frame.cat = .NGHTTP2_HCAT_RESPONSE ∧
          frame.stream_id = a.downchannel.stream_id then
        { a with event_group := xEventGroupSetBits a.event_group DOWNCHAN_CONNECTED_BIT }
      else a) ∧
    (frame.stream_id ≠ a.downchannel.stream_id → on_frame_recv_callback a frame = a) ∧
    (frame.hd_type = .NGHTTP2_HEADERS → frame.cat = .NGHTTP2_HCAT_RESPONSE →
      frame.stream_id = a.downchannel.stream_id →
      bits_set (on_frame_recv_callback a frame).event_group DOWNCHAN_CONNECTED_BIT = true) := by
  refine ⟨header_callback_keeps_downchan_bit a stream frame name value,
    header_callback_200 a stream frame value, on_frame_recv_callback_eq a frame, ?_, ?_⟩
  · intro hne
    rw [on_frame_recv_callback_eq]
    simp [hne]
  · intro hf hc hid
    rw [on_frame_recv_callback_eq]
    simp only [hf, hc, hid, and_self, if_true, bits_set, set_bits_and_self, decide_True]

/-- C10 at a concrete input: status 200 on the connected session, then the
complete HEADERS frame. -/
theorem C10_downchannel_ready_witness :
    header_callback connected_session .downchannel (response_headers 1)
        ":status".toList "200".toList
      = { connected_session with
          downchannel := { connected_session.downchannel with status := CONN_OPEN } } ∧
    bits_set (on_frame_recv_callback connected_session (response_headers 1)).event_group
      DOWNCHAN_CONNECTED_BIT = true :=
  ⟨(C10_downchannel_ready connected_session .downchannel (response_headers 1)
      ":status".toList "200".toList).2.1 rfl rfl rfl (by decide),
   (C10_downchannel_ready connected_session .downchannel (response_headers 1)
      ":status".toList "200".toList).2.2.2.2 rfl rfl rfl⟩

/-- Against C10 as worded: the complete HEADERS frame of a 403 response on the
downchannel stream sets `DOWNCHAN_CONNECTED_BIT` although no 200 response has
arrived and the downchannel status is `CONN_UNAUTHORIZED`. -/
theorem C10_ready_after_403 :
    (header_callback connected_session .downchannel (response_headers 1)
      ":status".toList "403".toList).downchannel.status = CONN_UNAUTHORIZED ∧
    bits_set (header_callback connected_session .downchannel (response_headers 1)
      ":status".toList "403".toList).event_group DOWNCHAN_CONNECTED_BIT = false ∧
    bits_set (on_frame_recv_callback
      (header_callback connected_session .downchannel (response_headers 1)
        ":status".toList "403".toList) (response_headers 1)).event_group
      DOWNCHAN_CONNECTED_BIT = true := by
  refine ⟨?_, ?_, ?_⟩ <;> decide

/-! ## C11: scenario D -/

theorem stream_close_shutdown (a : alexa_session_t) (h : http2_session_data_t)
    (stream : stream_ref) (hlast : h.num_outgoing_streams - 1 < 1) :
    stream_close_callback a h stream =
      (a.set_stream stream { a.stream stream with status := CONN_CLOSED },
       { num_outgoing_streams := h.num_outgoing_streams - 1,
         calls := h.calls ++ [.nghttp2_submit_goaway] }) := by
  simp only [stream_close_callback, hlast, if_true]

theorem stream_close_keep (a : alexa_session_t) (h : http2_session_data_t)
    (stream : stream_ref) (hmore : ¬ h.num_outgoing_streams - 1 < 1) :
    stream_close_callback a h stream =
      (a.set_stream stream { a.stream stream with status := CONN_CLOSED },
       { num_outgoing_streams := h.num_outgoing_streams - 1, calls := h.calls }) := by
  simp only [stream_close_callback, hmore, if_false]

theorem goaways_append_goaway (n : Int) (cs : List transport_call) :
    goaways { num_outgoing_streams := n, calls := cs ++ [.nghttp2_submit_goaway] }
      = goaways { num_outgoing_streams := n, calls := cs } + 1 := by
  simp [goaways, List.filter_append]

theorem goaways_counter (n m : Int) (cs : List transport_call) :
    goaways { num_outgoing_streams := n, calls := cs }
      = goaways { num_outgoing_streams := m, calls := cs } := rfl

/-- One stream-close event on a transport whose counter counts the closing
stream. -/
theorem stream_close_once (a : alexa_session_t) (h : http2_session_data_t)
    (stream : stream_ref) (hpos : 1 ≤ h.num_outgoing_streams) :
    ((stream_close_callback a h stream).1.stream stream).status = CONN_CLOSED ∧
    (stream_close_callback a h stream).2.num_outgoing_streams = h.num_outgoing_streams - 1 ∧
    goaways (stream_close_callback a h stream).2
      = goaways h + (if h.num_outgoing_streams - 1 = 0 then 1 else 0) ∧
    ((stream_close_callback a h stream).2.calls = h.calls ++ [.nghttp2_submit_goaway]
      ↔ (stream_close_callback a h stream).2.num_outgoing_streams = 0) ∧
    ((stream_close_callback a h stream).2.num_outgoing_streams ≠ 0 →
      (stream_close_callback a h stream).2.calls = h.calls) := by
  by_cases hlast : h.num_outgoing_streams - 1 < 1
  · have hz : h.num_outgoing_streams - 1 = 0 := by omega
    rw [stream_close_shutdown a h stream hlast]
    refine ⟨?_, rfl, ?_, ?_, ?_⟩
    · simp only [stream_set_stream]
    · rw [goaways_append_goaway, if_pos hz]
      rfl
    · exact ⟨fun _ => hz, fun _ => rfl⟩
    · intro hne
      exact absurd hz hne
  · have hz : ¬ h.num_outgoing_streams - 1 = 0 := by omega
    rw [stream_close_keep a h stream hlast]
    refine ⟨?_, rfl, ?_, ?_, ?_⟩
    · simp only [stream_set_stream]
    · rw [if_neg hz]
      rfl
    · constructor
      · intro hc
        have hl := congrArg List.length hc
        simp at hl
      · intro h0
        exact absurd h0 hz
    · intro _
      rfl

/-- C11. Every stream-close event (on a transport whose counter
`num_outgoing_streams` counts the closing stream, so is at least 1) sets that
stream's status to `CONN_CLOSED`, decrements the counter by one and initiates
the graceful shutdown (`nghttp2_submit_goaway`) exactly when the decremented
counter is zero.  Hence from a counter of 2, two stream closes take it
2 -> 1 -> 0 and the shutdown is initiated exactly once, by the second close and
not by the first. -/
theorem C11_stream_close_shutdown (a : alexa_session_t) (h : http2_session_data_t)
    (stream stream2 : stream_ref) (hpos : 1 ≤ h.num_outgoing_streams) :
    ((stream_close_callback a h stream).1.stream stream).status = CONN_CLOSED ∧
    (stream_close_callback a h stream).2.num_outgoing_streams = h.num_outgoing_streams - 1 ∧
    goaways (stream_close_callback a h stream).2
      = goaways h + (if h.num_outgoing_streams - 1 = 0 then 1 else 0) ∧
    ((stream_close_callback a h stream).2.calls = h.calls ++ [.nghttp2_submit_goaway]
      ↔ (stream_close_callback a h stream).2.num_outgoing_streams = 0) ∧
    ((stream_close_callback a h stream).2.num_outgoing_streams ≠ 0 →
      (stream_close_callback a h stream).2.calls = h.calls) ∧
    (h.num_outgoing_streams = 2 →
      (stream_close_callback a h stream).2.num_outgoing_streams = 1 ∧
      goaways (stream_close_callback a h stream).2 = goaways h ∧
      (stream_close_callback (stream_close_callback a h stream).1
        (stream_close_callback a h stream).2 stream2).2.num_outgoing_streams = 0 ∧
      goaways (stream_close_callback (stream_close_callback a h stream).1
        (stream_close_callback a h stream).2 stream2).2 = goaways h + 1) := by
  obtain ⟨h1, h2, h3, h4, h5⟩ := stream_close_once a h stream hpos
  refine ⟨h1, h2, h3, h4, h5, ?_⟩
  intro htwo
  have hn1 : (stream_close_callback a h stream).2.num_outgoing_streams = 1 := by
    rw [h2, htwo]; rfl
  have hg1 : goaways (stream_close_callback a h stream).2 = goaways h := by
    rw [h3, htwo]; rfl
  obtain ⟨_, k2, k3, _, _⟩ := stream_close_once (stream_close_callback a h stream).1
    (stream_close_callback a h stream).2 stream2 (by rw [hn1])
  refine ⟨hn1, hg1, ?_, ?_⟩
  · rw [k2, hn1]; rfl
  · rw [k3, hn1, hg1]; rfl

/-- C11 at a concrete input: the event channel closes, then the downchannel, on
a transport with two active streams. -/
theorem C11_stream_close_shutdown_witness :
    (stream_close_callback connected_session two_stream_transport
      .eventchannel).2.num_outgoing_streams = 1 ∧
    goaways (stream_close_callback connected_session two_stream_transport .eventchannel).2
      = goaways two_stream_transport ∧
    (stream_close_callback
      (stream_close_callback connected_session two_stream_transport .eventchannel).1
      (stream_close_callback connected_session two_stream_transport .eventchannel).2
      .downchannel).2.num_outgoing_streams = 0 ∧
    goaways (stream_close_callback
      (stream_close_callback connected_session two_stream_transport .eventchannel).1
      (stream_close_callback connected_session two_stream_transport .eventchannel).2
      .downchannel).2 = goaways two_stream_transport + 1 :=
  (C11_stream_close_shutdown connected_session two_stream_transport .eventchannel .downchannel
    (by decide)).2.2.2.2.2 rfl

/-! ## C13: the offered buffer -/

/-- In `AUDIO_DATA` the byte count is at most `buf_length` and the advanced
cursor stays inside the file. -/
theorem read_audio_data_within (json file : List Char) (y : Bool) (s : alexa_stream_t)
    (cap : Nat) (hs : s.next_action = AUDIO_DATA) (hwf : cursor s ≤ file.length) :
    (data_source_read_callback json file y s cap).bytes_written ≤ cap ∧
    cursor (data_source_read_callback json file y s cap).stream ≤ file.length := by
  rw [read_audio_data json file y s cap hs]
  constructor
  · simp only [read_result.bytes_written, List.length_take, List.length_drop]
    omega
  · show cursor s + min cap (file.length - cursor s) ≤ file.length
    omega

/-- Outside `AUDIO_DATA` the byte count is the length of the literal written,
whatever `buf_length` is. -/
theorem read_literal_length (json file : List Char) (y : Bool) (s : alexa_stream_t)
    (cap : Nat) :
    (s.next_action = META_HEADERS ∨ s.next_action = META_JSON →
      (data_source_read_callback json file y s cap).bytes_written = 120 + json.length) ∧
    (s.next_action = AUDIO_HEADERS →
      (data_source_read_callback json file y s cap).bytes_written = 110) ∧
    (s.next_action = DONE →
      (data_source_read_callback json file y s cap).bytes_written = 24) := by
  refine ⟨?_, ?_, ?_⟩
  · intro hs
    rw [read_meta_headers json file y s cap hs]
    simp only [read_result.bytes_written, List.length_append]
    rfl
  · intro hs
    rw [read_audio_headers json file y s cap hs]
    rfl
  · intro hs
    rw [read_done json file y s cap hs]
    rfl

/-- C13 (evaluation of the code at `buf_length = 16`). With a capacity of 16 bytes
the call in `META_HEADERS` copies 122 bytes to `buf` (the 120 bytes of
`JSON_PART_PREFIX` and the two bytes of the JSON text `{}`), the call in
`AUDIO_HEADERS` copies 110 and the call in `DONE` copies 24: each byte count
exceeds `buf_length`.  The `AUDIO_DATA` call stays within the buffer and the
file. -/
theorem C13_literal_exceeds_buffer :
    (data_source_read_callback "{}".toList "abc".toList false fresh_stream 16).bytes_written
      = 122 ∧
    (data_source_read_callback "{}".toList "abc".toList false
      { fresh_stream with next_action := AUDIO_HEADERS } 16).bytes_written = 110 ∧
    (data_source_read_callback "{}".toList "abc".toList false
      { fresh_stream with next_action := DONE, file_pos := some 3 } 16).bytes_written = 24 ∧
    (data_source_read_callback "{}".toList "abc".toList false audio_data_stream 2).bytes_written
      = 2 ∧
    cursor (data_source_read_callback "{}".toList "abc".toList false
      audio_data_stream 2).stream = 2 := by
  refine ⟨?_, ?_, ?_, ?_, ?_⟩ <;> rfl

/-! ## Lemmas on the stream statuses -/

theorem statuses_init_multipart (a : alexa_session_t) (r : stream_ref) (b : List Char) :
    (init_multipart_parser_fn a r b).downchannel.status = a.downchannel.status ∧
    (init_multipart_parser_fn a r b).eventchannel.status = a.eventchannel.status := by
  cases r <;> exact ⟨rfl, rfl⟩

theorem statuses_parse_boundary_term (a : alexa_session_t) (stream : stream_ref)
    (name value : List Char) :
    (parse_boundary_term a stream name value).downchannel.status = a.downchannel.status ∧
    (parse_boundary_term a stream name value).eventchannel.status = a.eventchannel.status := by
  unfold parse_boundary_term
  split
  · split
    · exact ⟨rfl, rfl⟩
    · dsimp only
      split
      · exact ⟨rfl, rfl⟩
      · exact statuses_init_multipart a stream _
  · exact ⟨rfl, rfl⟩

theorem statuses_dispatch (r : stream_ref) (a : alexa_session_t) (ev : multipart_event) :
    (dispatch r a ev).downchannel.status = a.downchannel.status ∧
    (dispatch r a ev).eventchannel.status = a.eventchannel.status := by
  cases ev with
  | header_field at_ => exact ⟨rfl, rfl⟩
  | header_value at_ =>
    simp only [dispatch, on_header_value]
    split
    · cases r <;> exact ⟨rfl, rfl⟩
    · exact ⟨rfl, rfl⟩
  | headers_complete => exact ⟨rfl, rfl⟩
  | part_data_begin => exact ⟨rfl, rfl⟩
  | part_data at_ =>
    simp only [dispatch, on_part_data]
    split <;> exact ⟨rfl, rfl⟩
  | part_data_end =>
    simp only [dispatch, on_part_data_end]
    split <;> exact ⟨rfl, rfl⟩
  | body_end => exact ⟨rfl, rfl⟩

theorem statuses_dispatch_all (r : stream_ref) :
    ∀ (evs : List multipart_event) (a : alexa_session_t),
      (dispatch_all r a evs).downchannel.status = a.downchannel.status ∧
      (dispatch_all r a evs).eventchannel.status = a.eventchannel.status := by
  intro evs
  induction evs with
  | nil => intro a; exact ⟨rfl, rfl⟩
  | cons ev evs ih =>
    intro a
    have h1 := statuses_dispatch r a ev
    have h2 := ih (dispatch r a ev)
    simp only [dispatch_all, List.foldl_cons] at h2 ⊢
    exact ⟨h2.1.trans h1.1, h2.2.trans h1.2⟩

theorem statuses_recv_callback (a : alexa_session_t) (stream : stream_ref)
    (events : List multipart_event) :
    (recv_callback a stream events).downchannel.status = a.downchannel.status ∧
    (recv_callback a stream events).eventchannel.status = a.eventchannel.status := by
  unfold recv_callback
  split
  · exact ⟨rfl, rfl⟩
  · exact statuses_dispatch_all stream events a

theorem statuses_on_frame_recv (a : alexa_session_t) (frame : nghttp2_frame) :
    (on_frame_recv_callback a frame).downchannel.status = a.downchannel.status ∧
    (on_frame_recv_callback a frame).eventchannel.status = a.eventchannel.status := by
  rw [on_frame_recv_callback_eq]
  split <;> exact ⟨rfl, rfl⟩

/-- The statuses after `header_callback`: the event channel keeps its status;
the downchannel keeps it unless the header is the `:status` header of a
response on the downchannel stream with value 403 or 200. -/
theorem statuses_header_callback (a : alexa_session_t) (stream : stream_ref)
    (frame : nghttp2_frame) (name value : List Char) :
    (header_callback a stream frame name value).eventchannel.status = a.eventchannel.status ∧
    ((header_callback a stream frame name value).downchannel.status = a.downchannel.status ∨
      (frame.hd_type = .NGHTTP2_HEADERS ∧ frame.cat = .NGHTTP2_HCAT_RESPONSE ∧
        frame.stream_id = a.downchannel.stream_id ∧ name = ":status".toList ∧
        ((atoi value = 403 ∧
            (header_callback a stream frame name value).downchannel.status = CONN_UNAUTHORIZED) ∨
         (atoi value = 200 ∧
            (header_callback a stream frame name value).downchannel.status = CONN_OPEN)))) := by
  unfold header_callback
  split
  · rename_i hf
    split
    · rename_i hc
      split
      · rename_i hid
        dsimp only
        split
        · rename_i h403
          exact ⟨rfl, Or.inr ⟨hf, hc, hid.1, hid.2, Or.inl ⟨h403, rfl⟩⟩⟩
        · split
          · rename_i h200
            have hp := statuses_parse_boundary_term
              { a with downchannel := { a.downchannel with status := CONN_OPEN } }
              stream name value
            exact ⟨hp.2, Or.inr ⟨hf, hc, hid.1, hid.2, Or.inr ⟨h200, hp.1⟩⟩⟩
          · have hp := statuses_parse_boundary_term a stream name value
            exact ⟨hp.2, Or.inl hp.1⟩
      · have hp := statuses_parse_boundary_term a stream name value
        exact ⟨hp.2, Or.inl hp.1⟩
    · exact ⟨rfl, Or.inl rfl⟩
  · exact ⟨rfl, Or.inl rfl⟩

theorem statuses_send_speech (w : alexa_session_t × http2_session_data_t) (ret id : Int) :
    (step_op w (.send_speech ret id)).1.downchannel.status = w.1.downchannel.status ∧
    (step_op w (.send_speech ret id)).1.eventchannel.status = w.1.eventchannel.status := by
  cases htok : w.1.auth_token with
  | none =>
    have h : send_speech w.1 w.2 ret id = none := by simp only [send_speech, htok]
    have hs : step_op w (.send_speech ret id) =
        ({ w.1 with
            eventchannel := { w.1.eventchannel with
              next_action := META_HEADERS, file_pos := none, current_part := META_HEADERS } },
          w.2) := by
      simp only [step_op, h]
    rw [hs]
    exact ⟨rfl, rfl⟩
  | some token =>
    have h := send_speech_with_token w.1 w.2 ret id token htok
    have hs : step_op w (.send_speech ret id) =
        ({ w.1 with
            eventchannel := { w.1.eventchannel with
              next_action := META_HEADERS, file_pos := none, current_part := META_HEADERS,
              stream_id := id } },
          { w.2 with calls := w.2.calls ++ [.nghttp_new_stream
              { uri := uri_events, method := "POST",
                hdrs := [("authorization", build_auth_header token),
                         ("content-type", HDR_FORM_DATA.toList)],
                data_provider := true }] }) := by
      simp only [step_op, h]
    rw [hs]
    exact ⟨rfl, rfl⟩

theorem statuses_open_downchannel (a : alexa_session_t) (h : http2_session_data_t)
    (refreshed : Option (List Char)) (ret id : Int)
    (r : alexa_session_t × http2_session_data_t × Int)
    (hr : open_downchannel a h refreshed ret id = some r) :
    r.1.downchannel.status = a.downchannel.status ∧
    r.1.eventchannel.status = a.eventchannel.status := by
  cases htok : a.auth_token with
  | some token =>
    simp only [open_downchannel, htok] at hr
    by_cases hret : ret ≠ 0
    · rw [if_pos hret] at hr
      have hr2 := Option.some.inj hr
      subst hr2
      exact ⟨rfl, rfl⟩
    · rw [if_neg hret] at hr
      have hr2 := Option.some.inj hr
      subst hr2
      exact ⟨rfl, rfl⟩
  | none =>
    cases refreshed with
    | some t =>
      simp only [open_downchannel, htok, refresh_and_wait] at hr
      by_cases hret : ret ≠ 0
      · rw [if_pos hret] at hr
        have hr2 := Option.some.inj hr
        subst hr2
        exact ⟨rfl, rfl⟩
      · rw [if_neg hret] at hr
        have hr2 := Option.some.inj hr
        subst hr2
        exact ⟨rfl, rfl⟩
    | none =>
      simp only [open_downchannel, htok, refresh_and_wait] at hr
      by_cases hb : bits_set a.event_group AUTH_TOKEN_VALID_BIT = true
      · simp only [hb, if_true, htok] at hr
        exact absurd hr (by simp)
      · simp only [hb, if_false] at hr
        exact absurd hr (by simp)

theorem statuses_step_open_downchannel (w : alexa_session_t × http2_session_data_t)
    (refreshed : Option (List Char)) (ret id : Int) :
    (step_op w (.open_downchannel refreshed ret id)).1.downchannel.status
      = w.1.downchannel.status ∧
    (step_op w (.open_downchannel refreshed ret id)).1.eventchannel.status
      = w.1.eventchannel.status := by
  cases hr : open_downchannel w.1 w.2 refreshed ret id with
  | none =>
    have hs : step_op w (.open_downchannel refreshed ret id) =
        ({ w.1 with downchannel := { w.1.downchannel with next_action := META_HEADERS } },
          w.2) := by
      simp only [step_op, hr]
    rw [hs]
    exact ⟨rfl, rfl⟩
  | some r =>
    have hs : step_op w (.open_downchannel refreshed ret id) = (r.1, r.2.1) := by
      simp only [step_op, hr]
    rw [hs]
    exact statuses_open_downchannel w.1 w.2 refreshed ret id r hr

theorem statuses_stream_close (a : alexa_session_t) (h : http2_session_data_t)
    (stream : stream_ref) :
    ((stream_close_callback a h stream).1.stream stream).status = CONN_CLOSED ∧
    (stream = .downchannel →
      (stream_close_callback a h stream).1.eventchannel.status = a.eventchannel.status) ∧
    (stream = .eventchannel →
      (stream_close_callback a h stream).1.downchannel.status = a.downchannel.status) := by
  by_cases hlast : h.num_outgoing_streams - 1 < 1
  · rw [stream_close_shutdown a h stream hlast]
    cases stream <;> simp [alexa_session_t.set_stream, alexa_session_t.stream]
  · rw [stream_close_keep a h stream hlast]
    cases stream <;> simp [alexa_session_t.set_stream, alexa_session_t.stream]

/-- One operation or event: the event channel keeps its status or becomes
`CONN_CLOSED`. -/
theorem step_eventchannel_status (w : alexa_session_t × http2_session_data_t)
    (op : session_op) :
    (step_op w op).1.eventchannel.status = w.1.eventchannel.status ∨
    (step_op w op).1.eventchannel.status = CONN_CLOSED := by
  cases op with
  | create_alexa_session => exact Or.inr rfl
  | open_downchannel refreshed ret id =>
    exact Or.inl (statuses_step_open_downchannel w refreshed ret id).2
  | send_speech ret id => exact Or.inl (statuses_send_speech w ret id).2
  | header_callback stream frame name value =>
    exact Or.inl (statuses_header_callback w.1 stream frame name value).1
  | on_frame_recv_callback frame => exact Or.inl (statuses_on_frame_recv w.1 frame).2
  | recv_callback stream events => exact Or.inl (statuses_recv_callback w.1 stream events).2
  | stream_close_callback stream =>
    have h := statuses_stream_close w.1 w.2 stream
    cases stream with
    | downchannel => exact Or.inl (h.2.1 rfl)
    | eventchannel => exact Or.inr h.1

/-- One operation or event: the downchannel keeps its status, becomes
`CONN_CLOSED`, or the event is the `:status` header 403 or 200 of a response on
the downchannel stream. -/
theorem step_downchannel_status (w : alexa_session_t × http2_session_data_t)
    (op : session_op) :
    (step_op w op).1.downchannel.status = w.1.downchannel.status ∨
    (step_op w op).1.downchannel.status = CONN_CLOSED ∨
    ∃ stream frame value,
      op = .header_callback stream frame ":status".toList value ∧
      frame.hd_type = .NGHTTP2_HEADERS ∧ frame.cat = .NGHTTP2_HCAT_RESPONSE ∧
      frame.stream_id = w.1.downchannel.stream_id ∧
      ((atoi value = 403 ∧ (step_op w op).1.downchannel.status = CONN_UNAUTHORIZED) ∨
       (atoi value = 200 ∧ (step_op w op).1.downchannel.status = CONN_OPEN)) := by
  cases op with
  | create_alexa_session => exact Or.inr (Or.inl rfl)
  | open_downchannel refreshed ret id =>
    exact Or.inl (statuses_step_open_downchannel w refreshed ret id).1
  | send_speech ret id => exact Or.inl (statuses_send_speech w ret id).1
  | header_callback stream frame name value =>
    rcases (statuses_header_callback w.1 stream frame name value).2 with h | h
    · exact Or.inl h
    · obtain ⟨hf, hc, hid, hn, hv⟩ := h
      subst hn
      exact Or.inr (Or.inr ⟨stream, frame, value, rfl, hf, hc, hid, hv⟩)
  | on_frame_recv_callback frame => exact Or.inl (statuses_on_frame_recv w.1 frame).1
  | recv_callback stream events => exact Or.inl (statuses_recv_callback w.1 stream events).1
  | stream_close_callback stream =>
    have h := statuses_stream_close w.1 w.2 stream
    cases stream with
    | downchannel => exact Or.inr (Or.inl h.1)
    | eventchannel => exact Or.inl (h.2.2 rfl)

theorem run_ops_eventchannel_closed :
    ∀ (ops : List session_op) (w : alexa_session_t × http2_session_data_t),
      w.1.eventchannel.status = CONN_CLOSED →
      (run_ops w ops).1.eventchannel.status = CONN_CLOSED := by
  intro ops
  induction ops with
  | nil => intro w hw; exact hw
  | cons op ops ih =>
    intro w hw
    have hstep : (step_op w op).1.eventchannel.status = CONN_CLOSED := by
      rcases step_eventchannel_status w op with h | h
      · rw [h]; exact hw
      · exact h
    have := ih (step_op w op) hstep
    simpa only [run_ops, List.foldl_cons] using this

/-! ## C12: stream status -/

/-- C12, as the code has it. `create_alexa_session` puts both streams in
`CONN_CLOSED`.  For every sequence of session operations and transport events
the event channel, once `CONN_CLOSED`, stays `CONN_CLOSED`.  One operation or
event leaves the downchannel's status as it was, or sets it to `CONN_CLOSED`,
or is the `:status` header 403 / 200 of a response on the downchannel stream,
which sets it to `CONN_UNAUTHORIZED` / `CONN_OPEN` whatever it was before,
`CONN_CLOSED` included.  `open_downchannel` and `send_speech` change no status;
a stream-close event sets the closed stream's status to `CONN_CLOSED`. -/
theorem C12_stream_status (w : alexa_session_t × http2_session_data_t)
    (ops : List session_op) (op : session_op)
    (hclosed : w.1.eventchannel.status = CONN_CLOSED) :
    create_alexa_session.downchannel.status = CONN_CLOSED ∧
    create_alexa_session.eventchannel.status = CONN_CLOSED ∧
    (run_ops w ops).1.eventchannel.status = CONN_CLOSED ∧
    ((step_op w op).1.downchannel.status = w.1.downchannel.status ∨
      (step_op w op).1.downchannel.status = CONN_CLOSED ∨
      ∃ stream frame value,
        op = .header_callback stream frame ":status".toList value ∧
        frame.hd_type = .NGHTTP2_HEADERS ∧ frame.cat = .NGHTTP2_HCAT_RESPONSE ∧
        frame.stream_id = w.1.downchannel.stream_id ∧
        ((atoi value = 403 ∧ (step_op w op).1.downchannel.status = CONN_UNAUTHORIZED) ∨
         (atoi value = 200 ∧ (step_op w op).1.downchannel.status = CONN_OPEN))) ∧
    (∀ (stream : stream_ref) (frame : nghttp2_frame) (value : List Char),
      frame.hd_type = .NGHTTP2_HEADERS → frame.cat = .NGHTTP2_HCAT_RESPONSE →
      frame.stream_id = w.1.downchannel.stream_id →
      (atoi value = 200 →
        (step_op w (.header_callback stream frame ":status".toList value)).1.downchannel.status
          = CONN_OPEN) ∧
      (atoi value = 403 →
        (step_op w (.header_callback stream frame ":status".toList value)).1.downchannel.status
          = CONN_UNAUTHORIZED)) ∧
    (∀ (refreshed : Option (List Char)) (ret id : Int),
      (step_op w (.open_downchannel refreshed ret id)).1.downchannel.status
        = w.1.downchannel.status) ∧
    (∀ ret id : Int,
      (step_op w (.send_speech ret id)).1.downchannel.status = w.1.downchannel.status ∧
      (step_op w (.send_speech ret id)).1.eventchannel.status = w.1.eventchannel.status) ∧
    (∀ stream : stream_ref,
      ((step_op w (.stream_close_callback stream)).1.stream stream).status = CONN_CLOSED) := by
  refine ⟨rfl, rfl, run_ops_eventchannel_closed ops w hclosed, step_downchannel_status w op,
    ?_, ?_, ?_, ?_⟩
  · intro stream frame value hf hc hid
    constructor
    · intro hv
      show (header_callback w.1 stream frame ":status".toList value).downchannel.status
        = CONN_OPEN
      rw [header_callback_200 w.1 stream frame value hf hc hid hv]
    · intro hv
      show (header_callback w.1 stream frame ":status".toList value).downchannel.status
        = CONN_UNAUTHORIZED
      rw [header_callback_403 w.1 stream frame value hf hc hid hv]
  · intro refreshed ret id
    exact (statuses_step_open_downchannel w refreshed ret id).1
  · intro ret id
    exact statuses_send_speech w ret id
  · intro stream
    exact (statuses_stream_close w.1 w.2 stream).1

/-- C12 at a concrete input: a session is created, the downchannel opened and
answered with status 200, speech sent, the event channel closed. -/
theorem C12_stream_status_witness :
    (run_ops (create_alexa_session, idle_transport)
      [.open_downchannel (some "tok".toList) 0 1,
       .header_callback .downchannel (response_headers 1) ":status".toList "200".toList,
       .on_frame_recv_callback (response_headers 1),
       .send_speech 0 3,
       .stream_close_callback .eventchannel]).1.eventchannel.status = CONN_CLOSED :=
  (C12_stream_status (create_alexa_session, idle_transport)
    [.open_downchannel (some "tok".toList) 0 1,
     .header_callback .downchannel (response_headers 1) ":status".toList "200".toList,
     .on_frame_recv_callback (response_headers 1),
     .send_speech 0 3,
     .stream_close_callback .eventchannel]
    .create_alexa_session rfl).2.2.1

/-- Against C12 as worded: after `create_alexa_session` and `open_downchannel`
(request issued, `ret = 0`) the downchannel's status is `CONN_CLOSED`, not
`CONN_CONNECTING`, and the `:status` header 200 then changes the `CONN_CLOSED`
status to `CONN_OPEN`. -/
theorem C12_closed_downchannel_opens :
    (run_ops (create_alexa_session, idle_transport)
      [.create_alexa_session,
       .open_downchannel (some "tok".toList) 0 1]).1.downchannel.status = CONN_CLOSED ∧
    requests_submitted (run_ops (create_alexa_session, idle_transport)
      [.create_alexa_session,
       .open_downchannel (some "tok".toList) 0 1]).2 = 1 ∧
    (run_ops (create_alexa_session, idle_transport)
      [.create_alexa_session,
       .open_downchannel (some "tok".toList) 0 1,
       .header_callback .downchannel (response_headers 1) ":status".toList
         "200".toList]).1.downchannel.status = CONN_OPEN := by
  refine ⟨?_, ?_, ?_⟩ <;> decide

end Alexa
